import Mathlib

/-!
Verification of the alma-sails pipeline orchestration core.

This file gives a shallow embedding, in Lean, of the state-machine core of the
alma-sails codebase (ID encoding converters, database record access and
updates, stage validators, the job-status monitor loop, the artifact-organize
walk, the CASA job-payload builders and their consumer, and the Prefect stage
flows), and proves or refutes the specified properties about it.

Python strings are modelled as `List Char` (`Str`); Python string operations
(`strip`, `replace`, `split`, `join`, f-strings) are modelled by executable
Lean functions with the same semantics on the inputs that occur.  Fallible
Python code (raising `ValueError` / `RuntimeError` / `KeyError`) is modelled
with `Except`.
-/

-- =====================================================================
-- Python string model
-- =====================================================================

/-- Python strings, modelled as lists of characters. -/
abbrev Str := List Char

/-- Coerce a Lean string literal into the `Str` model. -/
def str (s : String) : Str := s.data

/-- The characters removed by Python's `str.strip()` (ASCII whitespace). -/
def isPyWs (c : Char) : Bool :=
  c = ' ' ∨ c = '\t' ∨ c = '\n' ∨ c = '\r' ∨ c = '\x0b' ∨ c = '\x0c'

/-- Python `s.strip()`: remove leading and trailing whitespace. -/
def pyStrip (s : Str) : Str :=
  ((s.dropWhile isPyWs).reverse.dropWhile isPyWs).reverse

/-- Fuel-indexed worker for `pyReplace`; the fuel only bounds recursion
depth (each step consumes at least one character, so `s.length` suffices). -/
def pyReplaceAux (pat repl : Str) : ℕ → Str → Str
  | 0, s => s
  | _ + 1, [] => []
  | fuel + 1, c :: rest =>
    if pat ≠ [] ∧ pat.isPrefixOf (c :: rest) then
      repl ++ pyReplaceAux pat repl fuel ((c :: rest).drop pat.length)
    else
      c :: pyReplaceAux pat repl fuel rest

/-- Python `s.replace(pat, repl)` for a non-empty pattern: replace every
non-overlapping occurrence of `pat`, scanning left to right. -/
def pyReplace (pat repl : Str) (s : Str) : Str :=
  pyReplaceAux pat repl s.length s

/-- Helper for `pySplit`: accumulates the current piece reversed. -/
def pySplitAux (sep : Char) (cur : Str) : Str → List Str
  | [] => [cur.reverse]
  | c :: rest =>
    if c = sep then cur.reverse :: pySplitAux sep [] rest
    else pySplitAux sep (c :: cur) rest

/-- Python `s.split(sep)` for a single-character separator (keeps empty
pieces; `"".split(sep) == [""]`). -/
def pySplit (sep : Char) (s : Str) : List Str := pySplitAux sep [] s

/-- Python `sep.join(parts)` for a single-character separator. -/
def pyJoin (sep : Char) (parts : List Str) : Str := List.intercalate [sep] parts

-- =====================================================================
-- alma_ops/utils.py : MOUS ID converters
-- =====================================================================

/-- `alma_ops.utils.to_db_mous_id`: convert a MOUS ID (in either the
filesystem form `uid___A_B_C` or the database form `uid://A/B/C`) to the
database form; `Except.error` models the raised `ValueError`. -/
def to_db_mous_id (mous_id : Str) : Except Str Str :=
  let m := pyStrip mous_id
  if (str "uid://").isPrefixOf m then
    Except.ok m
  else if (str "uid___").isPrefixOf m then
    let core := pyReplace (str "uid___") [] m
    match pySplit '_' core with
    | [p0, p1, p2] =>
      Except.ok (str "uid://" ++ p0 ++ str "/" ++ p1 ++ str "/" ++ p2)
    | _ => Except.error (str "Invalid uid___ format: " ++ m)
  else
    Except.error (str "Cannot interpret MOUS ID: " ++ m)

/-- `alma_ops.utils.to_dir_mous_id`: convert a MOUS ID to the directory
(filesystem) form `uid___A_B_C`. -/
def to_dir_mous_id (mous_id : Str) : Except Str Str :=
  let m := pyStrip mous_id
  if (str "uid___").isPrefixOf m then
    Except.ok m
  else if (str "uid://").isPrefixOf m then
    let core := pyReplace (str "uid://") [] m
    match pySplit '/' core with
    | [p0, p1, p2] =>
      Except.ok (str "uid___" ++ pyJoin '_' [p0, p1, p2])
    | _ => Except.error (str "Invalid uid:// format: " ++ m)
  else
    Except.error (str "Cannot interpret MOUS ID: " ++ m)

-- =====================================================================
-- Valid MOUS IDs (the documented encodings)
-- =====================================================================

/-- A valid ID segment: non-empty, and free of the separator characters of
either encoding and of whitespace (the documented segments, e.g. `A001`,
`X123`, `Xabc`, are alphanumeric). -/
def ValidSeg (p : Str) : Prop :=
  p ≠ [] ∧ ∀ c ∈ p, c ≠ '_' ∧ c ≠ '/' ∧ isPyWs c = false

instance : DecidablePred ValidSeg := fun p => by
  unfold ValidSeg
  infer_instance

/-- The database textual encoding of an ID with segments `p0 p1 p2`. -/
def dbForm (p0 p1 p2 : Str) : Str :=
  str "uid://" ++ p0 ++ str "/" ++ p1 ++ str "/" ++ p2

/-- The filesystem (directory) textual encoding of an ID. -/
def dirForm (p0 p1 p2 : Str) : Str :=
  str "uid___" ++ p0 ++ str "_" ++ p1 ++ str "_" ++ p2

-- =====================================================================
-- String lemmas for the ID converters
-- =====================================================================

/-- `dropWhile` is the identity when the first element (if any) fails the
predicate. -/
theorem dropWhile_eq_self_of_head {p : Char → Bool} {s : Str}
    (h : ∀ c ∈ s.take 1, p c = false) : s.dropWhile p = s := by
  cases s with
  | nil => rfl
  | cons c t =>
    have hc : p c = false := h c (by simp)
    simp [List.dropWhile, hc]

/-- `strip` is the identity when neither end of the string is whitespace. -/
theorem pyStrip_eq_self {s : Str}
    (h1 : ∀ c ∈ s.take 1, isPyWs c = false)
    (h2 : ∀ c ∈ s.reverse.take 1, isPyWs c = false) : pyStrip s = s := by
  unfold pyStrip
  rw [dropWhile_eq_self_of_head h1, dropWhile_eq_self_of_head h2,
    List.reverse_reverse]

/-- No two adjacent occurrences of the character `x`. -/
def noAdj (x : Char) : Str → Bool
  | a :: b :: t => !(a = x ∧ b = x) && noAdj x (b :: t)
  | _ => true

theorem noAdj_tail {x : Char} {a : Char} {t : Str}
    (h : noAdj x (a :: t) = true) : noAdj x t = true := by
  cases t with
  | nil => rfl
  | cons b t' =>
    simp only [noAdj, Bool.and_eq_true] at h
    exact h.2

theorem noAdj_drop {x : Char} {s : Str} (n : ℕ)
    (h : noAdj x s = true) : noAdj x (s.drop n) = true := by
  induction n generalizing s with
  | zero => simpa using h
  | succ n ih =>
    cases s with
    | nil => rfl
    | cons a t => exact ih (noAdj_tail h)

theorem noAdj_of_isPrefixOf {x : Char} {pat s : Str}
    (hp : pat.isPrefixOf s = true) (h : noAdj x s = true) :
    noAdj x pat = true := by
  induction pat generalizing s with
  | nil => rfl
  | cons a pat' ih =>
    cases s with
    | nil => simp [List.isPrefixOf] at hp
    | cons b t =>
      simp only [List.isPrefixOf, Bool.and_eq_true, beq_iff_eq] at hp
      obtain ⟨rfl, hp'⟩ := hp
      cases pat' with
      | nil => rfl
      | cons c pat'' =>
        cases t with
        | nil => simp [List.isPrefixOf] at hp'
        | cons d t' =>
          have hcd : c = d := by
            simp only [List.isPrefixOf, Bool.and_eq_true, beq_iff_eq] at hp'
            exact hp'.1
          subst hcd
          simp only [noAdj, Bool.and_eq_true] at h ⊢
          exact ⟨h.1, ih hp' h.2⟩

theorem noAdj_of_not_mem {x : Char} {s : Str} (h : ∀ c ∈ s, c ≠ x) :
    noAdj x s = true := by
  induction s with
  | nil => rfl
  | cons a t ih =>
    cases t with
    | nil => rfl
    | cons b t' =>
      simp only [noAdj, Bool.and_eq_true, Bool.not_eq_true',
        decide_eq_false_iff_not, not_and]
      refine ⟨fun ha => absurd ha (h a (by simp)), ?_⟩
      exact ih (fun c hc => h c (List.mem_cons_of_mem a hc))

/-- Gluing a separator-free block onto `x :: b` preserves `noAdj`, provided
`b` does not itself start with `x`. -/
theorem noAdj_append_sep {x : Char} {a b : Str}
    (ha : ∀ c ∈ a, c ≠ x) (hb : noAdj x b = true)
    (hbh : ∀ c ∈ b.take 1, c ≠ x) : noAdj x (a ++ x :: b) = true := by
  induction a with
  | nil =>
    cases b with
    | nil => rfl
    | cons c t =>
      simp only [List.nil_append, noAdj, Bool.and_eq_true, Bool.not_eq_true',
        decide_eq_false_iff_not, not_and]
      exact ⟨fun _ => hbh c (by simp), hb⟩
  | cons d a' ih =>
    have hd : d ≠ x := ha d (by simp)
    have ha' : ∀ c ∈ a', c ≠ x := fun c hc => ha c (List.mem_cons_of_mem d hc)
    cases a' with
    | nil =>
      simp only [List.cons_append, List.nil_append, noAdj, Bool.and_eq_true,
        Bool.not_eq_true', decide_eq_false_iff_not, not_and]
      exact ⟨fun h => absurd h hd, ih ha'⟩
    | cons e a'' =>
      simp only [List.cons_append, noAdj, Bool.and_eq_true, Bool.not_eq_true',
        decide_eq_false_iff_not, not_and]
      refine ⟨fun h => absurd h hd, ?_⟩
      have := ih ha'
      simpa [List.cons_append] using this

/-- With enough fuel, the worker does not depend on the exact fuel. -/
theorem pyReplaceAux_fuel (pat repl : Str) :
    ∀ (f₁ f₂ : ℕ) (s : Str), s.length ≤ f₁ → s.length ≤ f₂ →
      pyReplaceAux pat repl f₁ s = pyReplaceAux pat repl f₂ s := by
  intro f₁
  induction f₁ with
  | zero =>
    intro f₂ s h1 _
    have : s = [] := List.eq_nil_of_length_eq_zero (Nat.le_zero.mp h1)
    subst this
    cases f₂ <;> rfl
  | succ f ih =>
    intro f₂ s h1 h2
    cases s with
    | nil => cases f₂ <;> rfl
    | cons c rest =>
      cases f₂ with
      | zero => simp at h2
      | succ f' =>
        simp only [pyReplaceAux]
        by_cases hc : pat ≠ [] ∧ pat.isPrefixOf (c :: rest)
        · rw [if_pos hc, if_pos hc]
          have hlen : ((c :: rest).drop pat.length).length ≤ f := by
            simp only [List.length_drop, List.length_cons]
            simp only [List.length_cons] at h1
            have : pat.length ≥ 1 := by
              cases hp : pat with
              | nil => exact absurd hp hc.1
              | cons a l => simp
            omega
          have hlen' : ((c :: rest).drop pat.length).length ≤ f' := by
            simp only [List.length_drop, List.length_cons]
            simp only [List.length_cons] at h2
            have : pat.length ≥ 1 := by
              cases hp : pat with
              | nil => exact absurd hp hc.1
              | cons a l => simp
            omega
          rw [ih f' _ hlen hlen']
        · rw [if_neg hc, if_neg hc]
          have hlen : rest.length ≤ f := by
            simp only [List.length_cons] at h1
            omega
          have hlen' : rest.length ≤ f' := by
            simp only [List.length_cons] at h2
            omega
          rw [ih f' _ hlen hlen']

/-- Unfolding equation for `pyReplace` on the empty list. -/
theorem pyReplace_nil (pat repl : Str) : pyReplace pat repl [] = [] := rfl

/-- Unfolding equation for `pyReplace` on a cons cell. -/
theorem pyReplace_cons (pat repl : Str) (c : Char) (rest : Str) :
    pyReplace pat repl (c :: rest)
      = if pat ≠ [] ∧ pat.isPrefixOf (c :: rest) then
          repl ++ pyReplace pat repl ((c :: rest).drop pat.length)
        else c :: pyReplace pat repl rest := by
  show pyReplaceAux pat repl (rest.length + 1) (c :: rest) = _
  simp only [pyReplaceAux]
  by_cases hc : pat ≠ [] ∧ pat.isPrefixOf (c :: rest)
  · rw [if_pos hc, if_pos hc]
    congr 1
    have hp1 : pat.length ≥ 1 := by
      cases hp : pat with
      | nil => exact absurd hp hc.1
      | cons a l => simp
    apply pyReplaceAux_fuel
    · simp only [List.length_drop, List.length_cons]
      omega
    · simp
  · rw [if_neg hc, if_neg hc]
    rfl

/-- Replacing a pattern that occurs right at the front. -/
theorem pyReplace_onPrefix {pat : Str} (repl s : Str) (hpat : pat ≠ []) :
    pyReplace pat repl (pat ++ s) = repl ++ pyReplace pat repl s := by
  cases hps : pat ++ s with
  | nil =>
    exact absurd (List.append_eq_nil.mp hps).1 hpat
  | cons c rest =>
    rw [← hps, hps, pyReplace_cons]
    have hpre : pat.isPrefixOf (c :: rest) = true := by
      rw [← hps]
      exact List.isPrefixOf_iff_prefix.mpr (List.prefix_append pat s)
    rw [if_pos ⟨hpat, hpre⟩, ← hps, List.drop_left]

/-- A list in which the pattern never occurs is left unchanged. -/
theorem pyReplace_no_occ {pat : Str} (repl : Str) {s : Str}
    (h : ∀ n, pat.isPrefixOf (s.drop n) = false) :
    pyReplace pat repl s = s := by
  induction s with
  | nil => exact pyReplace_nil pat repl
  | cons c rest ih =>
    rw [pyReplace_cons]
    have h0 : pat.isPrefixOf (c :: rest) = false := by simpa using h 0
    rw [if_neg (by simp [h0])]
    congr 1
    exact ih (fun n => by simpa using h (n + 1))

/-- If `x` never appears twice in a row in `s`, then no pattern containing
two adjacent `x`s occurs anywhere in `s`. -/
theorem not_occ_of_noAdj {x : Char} {pat s : Str}
    (hpat : noAdj x pat = false) (hs : noAdj x s = true) (n : ℕ) :
    pat.isPrefixOf (s.drop n) = false := by
  by_contra hcon
  have hp : pat.isPrefixOf (s.drop n) = true := by
    cases h' : pat.isPrefixOf (s.drop n) with
    | false => exact absurd h' hcon
    | true => rfl
  have := noAdj_of_isPrefixOf hp (noAdj_drop n hs)
  rw [hpat] at this
  exact Bool.false_ne_true this

/-- Splitting a string that starts with a separator-free block followed by a
separator. -/
theorem pySplitAux_block {sep : Char} {p : Str} (rest : Str) (acc : Str)
    (hp : ∀ c ∈ p, c ≠ sep) :
    pySplitAux sep acc (p ++ sep :: rest)
      = (acc.reverse ++ p) :: pySplitAux sep [] rest := by
  induction p generalizing acc with
  | nil => simp [pySplitAux]
  | cons c p' ih =>
    have hc : c ≠ sep := hp c (by simp)
    simp only [List.cons_append, pySplitAux, if_neg hc, List.append_eq]
    rw [ih (c :: acc) (fun d hd => hp d (List.mem_cons_of_mem c hd))]
    simp

/-- Splitting a separator-free block. -/
theorem pySplitAux_last {sep : Char} {p : Str} (acc : Str)
    (hp : ∀ c ∈ p, c ≠ sep) :
    pySplitAux sep acc p = [acc.reverse ++ p] := by
  induction p generalizing acc with
  | nil => simp [pySplitAux]
  | cons c p' ih =>
    have hc : c ≠ sep := hp c (by simp)
    simp only [pySplitAux, if_neg hc]
    rw [ih (c :: acc) (fun d hd => hp d (List.mem_cons_of_mem c hd))]
    simp

/-- Splitting a three-segment string on its separator. -/
theorem pySplit_three {sep : Char} {p0 p1 p2 : Str}
    (h0 : ∀ c ∈ p0, c ≠ sep) (h1 : ∀ c ∈ p1, c ≠ sep)
    (h2 : ∀ c ∈ p2, c ≠ sep) :
    pySplit sep (p0 ++ sep :: (p1 ++ sep :: p2)) = [p0, p1, p2] := by
  unfold pySplit
  rw [pySplitAux_block _ _ h0]
  rw [pySplitAux_block _ _ h1]
  rw [pySplitAux_last _ h2]
  simp

theorem str_underscore : str "_" = ['_'] := by decide

theorem str_slash : str "/" = ['/'] := by decide

/-- A candidate prefix of the same length as the actual leading block, but
different from it, is not a prefix. -/
theorem isPrefixOf_append_left_false {a b : Str} (rest : Str)
    (hlen : a.length = b.length) (hne : a ≠ b) :
    a.isPrefixOf (b ++ rest) = false := by
  cases h : a.isPrefixOf (b ++ rest) with
  | false => rfl
  | true =>
    have hp : a <+: b ++ rest := List.isPrefixOf_iff_prefix.mp h
    have := List.prefix_iff_eq_take.mp hp
    rw [hlen, List.take_left] at this
    exact absurd this hne

theorem isPrefixOf_append_self (a rest : Str) :
    a.isPrefixOf (a ++ rest) = true :=
  List.isPrefixOf_iff_prefix.mpr (List.prefix_append a rest)

/-- `strip` is the identity on `a ++ (m ++ p)` when `a` starts with a
non-whitespace character and `p` is non-empty and whitespace-free. -/
theorem pyStrip_affix {a m p : Str}
    (han : a ≠ []) (ha : ∀ c ∈ a.take 1, isPyWs c = false)
    (hpn : p ≠ []) (hp : ∀ c ∈ p, isPyWs c = false) :
    pyStrip (a ++ (m ++ p)) = a ++ (m ++ p) := by
  apply pyStrip_eq_self
  · intro c hc
    rw [List.take_append_of_le_length (by
      cases a with | nil => exact absurd rfl han | cons x t => simp)] at hc
    exact ha c hc
  · intro c hc
    rw [List.reverse_append, List.reverse_append, List.append_assoc] at hc
    rw [List.take_append_of_le_length (by
      cases p with | nil => exact absurd rfl hpn | cons x t => simp)] at hc
    exact hp c (List.mem_reverse.mp (List.mem_of_mem_take hc))

/-- The three-segment core `p0 ++ x :: p1 ++ x :: p2` has no two adjacent
separators when the segments are separator-free and `p1`, `p2` non-empty. -/
theorem noAdj_core {x : Char} {p0 p1 p2 : Str}
    (h0 : ∀ c ∈ p0, c ≠ x)
    (h1n : p1 ≠ []) (h1 : ∀ c ∈ p1, c ≠ x)
    (h2n : p2 ≠ []) (h2 : ∀ c ∈ p2, c ≠ x) :
    noAdj x (p0 ++ x :: (p1 ++ x :: p2)) = true := by
  apply noAdj_append_sep h0
  · apply noAdj_append_sep h1 (noAdj_of_not_mem h2)
    intro c hc
    exact h2 c (List.mem_of_mem_take hc)
  · intro c hc
    rw [List.take_append_of_le_length (by
      cases p1 with | nil => exact absurd rfl h1n | cons y t => simp)] at hc
    exact h1 c (List.mem_of_mem_take hc)

/-- Stripping the marker prefix off a full ID leaves exactly the core:
the pattern cannot reoccur because it contains two adjacent separators
while the core never does. -/
theorem pyReplace_marker {pat : Str} {x : Char}
    (hpx : noAdj x pat = false) (hpatn : pat ≠ []) {p0 p1 p2 : Str}
    (h0 : ∀ c ∈ p0, c ≠ x)
    (h1n : p1 ≠ []) (h1 : ∀ c ∈ p1, c ≠ x)
    (h2n : p2 ≠ []) (h2 : ∀ c ∈ p2, c ≠ x) :
    pyReplace pat [] (pat ++ (p0 ++ x :: (p1 ++ x :: p2)))
      = p0 ++ x :: (p1 ++ x :: p2) := by
  rw [pyReplace_onPrefix _ _ hpatn, List.nil_append]
  exact pyReplace_no_occ []
    (fun n => not_occ_of_noAdj hpx (noAdj_core h0 h1n h1 h2n h2) n)

theorem to_db_dbForm (p0 p1 p2 : Str) (h0 : ValidSeg p0) (h1 : ValidSeg p1)
    (h2 : ValidSeg p2) :
    to_db_mous_id (dbForm p0 p1 p2) = Except.ok (dbForm p0 p1 p2) := by
  obtain ⟨h2n, h2c⟩ := h2
  have hstrip : pyStrip (dbForm p0 p1 p2) = dbForm p0 p1 p2 := by
    have hshape : dbForm p0 p1 p2
        = str "uid://" ++ ((p0 ++ str "/" ++ p1 ++ str "/") ++ p2) := by
      simp [dbForm, List.append_assoc]
    rw [hshape]
    exact pyStrip_affix (by decide) (by decide) h2n
      (fun c hc => (h2c c hc).2.2)
  have hpre : (str "uid://").isPrefixOf (dbForm p0 p1 p2) = true := by
    have hshape : dbForm p0 p1 p2
        = str "uid://" ++ (p0 ++ str "/" ++ p1 ++ str "/" ++ p2) := by
      simp [dbForm, List.append_assoc]
    rw [hshape]
    exact isPrefixOf_append_self _ _
  unfold to_db_mous_id
  simp only [hstrip, hpre, if_true]

theorem to_db_dirForm (p0 p1 p2 : Str) (h0 : ValidSeg p0) (h1 : ValidSeg p1)
    (h2 : ValidSeg p2) :
    to_db_mous_id (dirForm p0 p1 p2) = Except.ok (dbForm p0 p1 p2) := by
  obtain ⟨h0n, h0c⟩ := h0
  obtain ⟨h1n, h1c⟩ := h1
  obtain ⟨h2n, h2c⟩ := h2
  have hstrip : pyStrip (dirForm p0 p1 p2) = dirForm p0 p1 p2 := by
    have hshape : dirForm p0 p1 p2
        = str "uid___" ++ ((p0 ++ str "_" ++ p1 ++ str "_") ++ p2) := by
      simp [dirForm, List.append_assoc]
    rw [hshape]
    exact pyStrip_affix (by decide) (by decide) h2n
      (fun c hc => (h2c c hc).2.2)
  have hshapeC : dirForm p0 p1 p2
      = str "uid___" ++ (p0 ++ '_' :: (p1 ++ '_' :: p2)) := by
    simp [dirForm, str_underscore, List.append_assoc]
  have hpre_db : (str "uid://").isPrefixOf (dirForm p0 p1 p2) = false := by
    rw [hshapeC]
    exact isPrefixOf_append_left_false _ (by decide) (by decide)
  have hpre_dir : (str "uid___").isPrefixOf (dirForm p0 p1 p2) = true := by
    rw [hshapeC]
    exact isPrefixOf_append_self _ _
  have hcore : pyReplace (str "uid___") [] (dirForm p0 p1 p2)
      = p0 ++ '_' :: (p1 ++ '_' :: p2) := by
    rw [hshapeC]
    exact pyReplace_marker (by decide) (by decide)
      (fun c hc => (h0c c hc).1) h1n (fun c hc => (h1c c hc).1)
      h2n (fun c hc => (h2c c hc).1)
  have hsplit : pySplit '_' (p0 ++ '_' :: (p1 ++ '_' :: p2)) = [p0, p1, p2] :=
    pySplit_three (fun c hc => (h0c c hc).1) (fun c hc => (h1c c hc).1)
      (fun c hc => (h2c c hc).1)
  unfold to_db_mous_id
  simp only [hstrip, hpre_db, hpre_dir, hcore, hsplit, Bool.false_eq_true,
    if_false, if_true]
  simp [dbForm, List.append_assoc]

theorem to_dir_dirForm (p0 p1 p2 : Str) (h0 : ValidSeg p0) (h1 : ValidSeg p1)
    (h2 : ValidSeg p2) :
    to_dir_mous_id (dirForm p0 p1 p2) = Except.ok (dirForm p0 p1 p2) := by
  obtain ⟨h2n, h2c⟩ := h2
  have hstrip : pyStrip (dirForm p0 p1 p2) = dirForm p0 p1 p2 := by
    have hshape : dirForm p0 p1 p2
        = str "uid___" ++ ((p0 ++ str "_" ++ p1 ++ str "_") ++ p2) := by
      simp [dirForm, List.append_assoc]
    rw [hshape]
    exact pyStrip_affix (by decide) (by decide) h2n
      (fun c hc => (h2c c hc).2.2)
  have hpre : (str "uid___").isPrefixOf (dirForm p0 p1 p2) = true := by
    have hshape : dirForm p0 p1 p2
        = str "uid___" ++ (p0 ++ str "_" ++ p1 ++ str "_" ++ p2) := by
      simp [dirForm, List.append_assoc]
    rw [hshape]
    exact isPrefixOf_append_self _ _
  unfold to_dir_mous_id
  simp only [hstrip, hpre, if_true]

theorem to_dir_dbForm (p0 p1 p2 : Str) (h0 : ValidSeg p0) (h1 : ValidSeg p1)
    (h2 : ValidSeg p2) :
    to_dir_mous_id (dbForm p0 p1 p2) = Except.ok (dirForm p0 p1 p2) := by
  obtain ⟨h0n, h0c⟩ := h0
  obtain ⟨h1n, h1c⟩ := h1
  obtain ⟨h2n, h2c⟩ := h2
  have hstrip : pyStrip (dbForm p0 p1 p2) = dbForm p0 p1 p2 := by
    have hshape : dbForm p0 p1 p2
        = str "uid://" ++ ((p0 ++ str "/" ++ p1 ++ str "/") ++ p2) := by
      simp [dbForm, List.append_assoc]
    rw [hshape]
    exact pyStrip_affix (by decide) (by decide) h2n
      (fun c hc => (h2c c hc).2.2)
  have hshapeC : dbForm p0 p1 p2
      = str "uid://" ++ (p0 ++ '/' :: (p1 ++ '/' :: p2)) := by
    simp [dbForm, str_slash, List.append_assoc]
  have hpre_dir : (str "uid___").isPrefixOf (dbForm p0 p1 p2) = false := by
    rw [hshapeC]
    exact isPrefixOf_append_left_false _ (by decide) (by decide)
  have hpre_db : (str "uid://").isPrefixOf (dbForm p0 p1 p2) = true := by
    rw [hshapeC]
    exact isPrefixOf_append_self _ _
  have hcore : pyReplace (str "uid://") [] (dbForm p0 p1 p2)
      = p0 ++ '/' :: (p1 ++ '/' :: p2) := by
    rw [hshapeC]
    exact pyReplace_marker (by decide) (by decide)
      (fun c hc => (h0c c hc).2.1) h1n (fun c hc => (h1c c hc).2.1)
      h2n (fun c hc => (h2c c hc).2.1)
  have hsplit : pySplit '/' (p0 ++ '/' :: (p1 ++ '/' :: p2)) = [p0, p1, p2] :=
    pySplit_three (fun c hc => (h0c c hc).2.1) (fun c hc => (h1c c hc).2.1)
      (fun c hc => (h2c c hc).2.1)
  unfold to_dir_mous_id
  simp only [hstrip, hpre_dir, hpre_db, hcore, hsplit, Bool.false_eq_true,
    if_false, if_true]
  simp [dirForm, pyJoin, str_underscore, List.intercalate, List.append_assoc]

/-- **C8**: for every valid unit ID in either textual encoding (the
documented three-segment forms `uid://A/B/C` and `uid___A_B_C` with
separator-free, whitespace-free, non-empty segments), converting to database
form and then to filesystem (directory) form gives the same result as
converting directly to filesystem form, and vice versa; and each converter
is idempotent — an ID already in its target form is returned unchanged. -/
theorem mous_id_roundtrip_idempotent (p0 p1 p2 : Str)
    (h0 : ValidSeg p0) (h1 : ValidSeg p1) (h2 : ValidSeg p2) :
    (to_db_mous_id (dbForm p0 p1 p2) = Except.ok (dbForm p0 p1 p2))
  ∧ (to_dir_mous_id (dirForm p0 p1 p2) = Except.ok (dirForm p0 p1 p2))
  ∧ ((to_db_mous_id (dbForm p0 p1 p2)).bind to_dir_mous_id
      = to_dir_mous_id (dbForm p0 p1 p2))
  ∧ ((to_db_mous_id (dirForm p0 p1 p2)).bind to_dir_mous_id
      = to_dir_mous_id (dirForm p0 p1 p2))
  ∧ ((to_dir_mous_id (dbForm p0 p1 p2)).bind to_db_mous_id
      = to_db_mous_id (dbForm p0 p1 p2))
  ∧ ((to_dir_mous_id (dirForm p0 p1 p2)).bind to_db_mous_id
      = to_db_mous_id (dirForm p0 p1 p2)) := by
  have hdbdb := to_db_dbForm p0 p1 p2 h0 h1 h2
  have hdbdir := to_db_dirForm p0 p1 p2 h0 h1 h2
  have hdirdb := to_dir_dbForm p0 p1 p2 h0 h1 h2
  have hdirdir := to_dir_dirForm p0 p1 p2 h0 h1 h2
  refine ⟨hdbdb, hdirdir, ?_, ?_, ?_, ?_⟩
  · calc (to_db_mous_id (dbForm p0 p1 p2)).bind to_dir_mous_id
        = (Except.ok (dbForm p0 p1 p2)).bind to_dir_mous_id := by rw [hdbdb]
      _ = to_dir_mous_id (dbForm p0 p1 p2) := rfl
  · calc (to_db_mous_id (dirForm p0 p1 p2)).bind to_dir_mous_id
        = (Except.ok (dbForm p0 p1 p2)).bind to_dir_mous_id := by rw [hdbdir]
      _ = to_dir_mous_id (dbForm p0 p1 p2) := rfl
      _ = Except.ok (dirForm p0 p1 p2) := hdirdb
      _ = to_dir_mous_id (dirForm p0 p1 p2) := hdirdir.symm
  · calc (to_dir_mous_id (dbForm p0 p1 p2)).bind to_db_mous_id
        = (Except.ok (dirForm p0 p1 p2)).bind to_db_mous_id := by rw [hdirdb]
      _ = to_db_mous_id (dirForm p0 p1 p2) := rfl
      _ = Except.ok (dbForm p0 p1 p2) := hdbdir
      _ = to_db_mous_id (dbForm p0 p1 p2) := hdbdb.symm
  · calc (to_dir_mous_id (dirForm p0 p1 p2)).bind to_db_mous_id
        = (Except.ok (dirForm p0 p1 p2)).bind to_db_mous_id := by rw [hdirdir]
      _ = to_db_mous_id (dirForm p0 p1 p2) := rfl

/-- Witness for C8 at the concrete ID `uid://A001/X123/Xabc`. -/
theorem mous_id_roundtrip_idempotent_witness :
    ValidSeg (str "A001") ∧ ValidSeg (str "X123") ∧ ValidSeg (str "Xabc")
  ∧ ((to_db_mous_id (dbForm (str "A001") (str "X123") (str "Xabc"))
        = Except.ok (dbForm (str "A001") (str "X123") (str "Xabc")))
    ∧ (to_dir_mous_id (dirForm (str "A001") (str "X123") (str "Xabc"))
        = Except.ok (dirForm (str "A001") (str "X123") (str "Xabc")))
    ∧ ((to_db_mous_id (dbForm (str "A001") (str "X123") (str "Xabc"))).bind
          to_dir_mous_id
        = to_dir_mous_id (dbForm (str "A001") (str "X123") (str "Xabc")))
    ∧ ((to_db_mous_id (dirForm (str "A001") (str "X123") (str "Xabc"))).bind
          to_dir_mous_id
        = to_dir_mous_id (dirForm (str "A001") (str "X123") (str "Xabc")))
    ∧ ((to_dir_mous_id (dbForm (str "A001") (str "X123") (str "Xabc"))).bind
          to_db_mous_id
        = to_db_mous_id (dbForm (str "A001") (str "X123") (str "Xabc")))
    ∧ ((to_dir_mous_id (dirForm (str "A001") (str "X123") (str "Xabc"))).bind
          to_db_mous_id
        = to_db_mous_id (dirForm (str "A001") (str "X123") (str "Xabc")))) :=
  ⟨by decide, by decide, by decide,
    mous_id_roundtrip_idempotent (str "A001") (str "X123") (str "Xabc")
      (by decide) (by decide) (by decide)⟩

-- =====================================================================
-- Python values and the JSON codec (json.loads / json.dumps)
-- =====================================================================

/-- Python values as they occur in this codebase: `None`, booleans,
integers, strings, lists and (string-keyed) dicts.  SQLite TEXT/NULL cells
and `json` payloads take values in this type.  JSON floats and `\u` string
escapes are not modelled (no stored value in the repository uses them). -/
inductive PyVal where
  | none
  | bool (b : Bool)
  | int (n : Int)
  | pstr (s : Str)
  | list (xs : List PyVal)
  | dict (kvs : List (Str × PyVal))

/-- Python truthiness (`if not value: ...`). -/
def pyTruthy : PyVal → Bool
  | PyVal.none => false
  | PyVal.bool b => b
  | PyVal.int n => n != 0
  | PyVal.pstr s => !s.isEmpty
  | PyVal.list xs => !xs.isEmpty
  | PyVal.dict kvs => !kvs.isEmpty

/-- JSON whitespace. -/
def isJsonWs (c : Char) : Bool :=
  c = ' ' ∨ c = '\t' ∨ c = '\n' ∨ c = '\r'

def skipWs (s : Str) : Str := s.dropWhile isJsonWs

/-- Parse the body of a JSON string after the opening quote, handling the
simple escapes. -/
def parseStrBody : Str → Option (Str × Str)
  | [] => Option.none
  | '"' :: rest => some ([], rest)
  | '\\' :: e :: rest =>
    (match e with
     | '"' => some '"'
     | '\\' => some '\\'
     | '/' => some '/'
     | 'n' => some '\n'
     | 't' => some '\t'
     | 'r' => some '\r'
     | 'b' => some '\x08'
     | 'f' => some '\x0c'
     | _ => Option.none).bind fun c =>
      (parseStrBody rest).map fun (body, rem) => (c :: body, rem)
  | c :: rest =>
    if c.toNat < 32 then Option.none
    else (parseStrBody rest).map fun (body, rem) => (c :: body, rem)

/-- Digits of a natural number, most significant first. -/
def natDigits (n : ℕ) : Str :=
  (Nat.toDigits 10 n)

/-- Parse a JSON integer (optional minus, digit run); floats (fraction or
exponent part) are not modelled and yield `none`. -/
def parseJsonInt (s : Str) : Option (PyVal × Str) :=
  let (neg, t) := match s with
    | '-' :: t => (true, t)
    | _ => (false, s)
  let ds := t.takeWhile Char.isDigit
  let rest := t.drop ds.length
  if ds = [] then Option.none
  else
    match rest with
    | '.' :: _ => Option.none
    | 'e' :: _ => Option.none
    | 'E' :: _ => Option.none
    | _ =>
      let n : ℕ := ds.foldl (fun acc c => acc * 10 + (c.toNat - 48)) 0
      some (PyVal.int (if neg then -(n : ℤ) else (n : ℤ)), rest)

mutual

/-- Recursive-descent JSON value parser (fuel-indexed). -/
def parseVal : ℕ → Str → Option (PyVal × Str)
  | 0, _ => Option.none
  | fuel + 1, s =>
    match skipWs s with
    | 'n' :: 'u' :: 'l' :: 'l' :: rest => some (PyVal.none, rest)
    | 't' :: 'r' :: 'u' :: 'e' :: rest => some (PyVal.bool true, rest)
    | 'f' :: 'a' :: 'l' :: 's' :: 'e' :: rest => some (PyVal.bool false, rest)
    | '"' :: rest =>
      (parseStrBody rest).map fun (body, rem) => (PyVal.pstr body, rem)
    | '[' :: rest => parseArr fuel rest
    | '\x7b' :: rest => parseObj fuel rest
    | t => parseJsonInt t

/-- Parse an array after `[`. -/
def parseArr : ℕ → Str → Option (PyVal × Str)
  | 0, _ => Option.none
  | fuel + 1, s =>
    match skipWs s with
    | ']' :: rest => some (PyVal.list [], rest)
    | t =>
      (parseVal fuel t).bind fun (v, rem) =>
        (parseArrTail fuel rem).map fun (vs, rem') => (PyVal.list (v :: vs), rem')

/-- Parse `, v , v ... ]` after the first array element. -/
def parseArrTail : ℕ → Str → Option (List PyVal × Str)
  | 0, _ => Option.none
  | fuel + 1, s =>
    match skipWs s with
    | ']' :: rest => some ([], rest)
    | ',' :: rest =>
      (parseVal fuel rest).bind fun (v, rem) =>
        (parseArrTail fuel rem).map fun (vs, rem') => (v :: vs, rem')
    | _ => Option.none

/-- Parse an object after the opening brace. -/
def parseObj : ℕ → Str → Option (PyVal × Str)
  | 0, _ => Option.none
  | fuel + 1, s =>
    match skipWs s with
    | '\x7d' :: rest => some (PyVal.dict [], rest)
    | t =>
      (parseMember fuel t).bind fun (kv, rem) =>
        (parseObjTail fuel rem).map fun (kvs, rem') =>
          (PyVal.dict (kv :: kvs), rem')

/-- Parse one `"key" : value` member. -/
def parseMember : ℕ → Str → Option ((Str × PyVal) × Str)
  | 0, _ => Option.none
  | fuel + 1, s =>
    match skipWs s with
    | '"' :: rest =>
      (parseStrBody rest).bind fun (key, rem) =>
        match skipWs rem with
        | ':' :: rem' =>
          (parseVal fuel rem').map fun (v, rem'') => ((key, v), rem'')
        | _ => Option.none
    | _ => Option.none

/-- Parse `, member ...` up to the closing brace. -/
def parseObjTail : ℕ → Str → Option (List (Str × PyVal) × Str)
  | 0, _ => Option.none
  | fuel + 1, s =>
    match skipWs s with
    | '\x7d' :: rest => some ([], rest)
    | ',' :: rest =>
      (parseMember fuel rest).bind fun (kv, rem) =>
        (parseObjTail fuel rem).map fun (kvs, rem') => (kv :: kvs, rem')
    | _ => Option.none

end

/-- `json.loads`: parse a complete JSON document; `none` models
`json.JSONDecodeError`. -/
def jsonLoads (s : Str) : Option PyVal :=
  match parseVal (sizeOf s + 1) s with
  | some (v, rest) => if skipWs rest = [] then some v else Option.none
  | Option.none => Option.none

/-- `alma_ops.db.parse_json_safe`: `None` maps to `None`; a string cell is
parsed as JSON when possible, otherwise returned unchanged; a non-string
cell raises `TypeError` inside `json.loads`, which is caught, returning the
value unchanged. -/
def parse_json_safe : PyVal → PyVal
  | PyVal.none => PyVal.none
  | PyVal.pstr s =>
    match jsonLoads s with
    | some v => v
    | Option.none => PyVal.pstr s
  | v => v

-- =====================================================================
-- Error taxonomy (raise sites, modelled structurally)
-- =====================================================================

/-- The exceptions raised by the modelled code.  Each constructor stands
for one raise site (or family of sites) and carries the data interpolated
into the Python message:
* `notFound` — `ValueError(f"MOUS ID {mous_id} not found")`;
* `badStatus f m got exp` — `ValueError(f"MOUS {m} has ... '{got}', expected ...")`
  for the status field `f`;
* `missingUrl` — `ValueError(f"No download URL for {mous_id}")`;
* `noCalibratedProducts` / `noSplitProducts` — the empty-products checks;
* `noTargets` — `RuntimeError(f"No targets found for {mous_id}.")`;
* `invalidRemapJson` — `ValueError("Invalid JSON in raw_data_spectral_remap")`;
* `launchFailure` — `RuntimeError("Unsuccessful job launch.")`;
* `jobLost id` — `RuntimeError(f"Job {id} returned empty info 3 times - ...")`;
* `jobFailed s` — `RuntimeError(f"Job failed with status: {s}")`;
* `invalidIdFormat m` — the `ValueError`s of the two MOUS ID converters;
* `keyError k` — Python `KeyError` on a missing dict key `k`;
* `attributeError` / `typeError` / `intParseError` — `.items()` on a
  non-dict, `json.loads`/`int()` on a non-string, `int()` on a bad literal;
* `indexError` — `sqlite3.Row[col]` with an unknown column;
* `envFailure` — an environment failure (tmpdir creation, filesystem
  write, job submission transport) injected by an oracle. -/
inductive PyErr where
  | notFound (mous_id : Str)
  | badStatus (field : Str) (mous_id : Str) (got : PyVal) (expected : List Str)
  | missingUrl (mous_id : Str)
  | missingDirectory (mous_id : Str)
  | noCalibratedProducts (mous_id : Str)
  | noSplitProducts (mous_id : Str)
  | noTargets (mous_id : Str)
  | invalidRemapJson
  | launchFailure
  | jobLost (job_id : Str)
  | jobFailed (status : Str)
  | invalidIdFormat (mous_id : Str)
  | keyError (key : Str)
  | attributeError
  | typeError
  | intParseError
  | indexError
  | envFailure

/-- Python `value == "literal"` for a database cell: true exactly when the
cell holds that string. -/
def PyVal.eqStr : PyVal → Str → Bool
  | PyVal.pstr s, t => s == t
  | _, _ => false

-- =====================================================================
-- State store model (the sqlite tables the core reads and writes)
-- =====================================================================

/-- One `pipeline_state` row (the columns the modelled code touches).
Cells are sqlite values: TEXT (`PyVal.pstr`) or NULL (`PyVal.none`). -/
structure PipelineRow where
  mous_id : Str
  download_status : PyVal
  download_url : PyVal
  mous_directory : PyVal
  calibrated_products : PyVal
  pre_selfcal_split_status : PyVal
  split_products_path : PyVal
  pre_selfcal_listobs_status : PyVal
  preferred_datacolumn : PyVal
  raw_data_spectral_remap : PyVal

/-- One `targets` row (the columns consumed by the spw mapping). -/
structure TargetRow where
  mous_id : Str
  alma_source_name : Str
  obs_id : Option Str

/-- The state store: the `pipeline_state` and `targets` tables. -/
structure DB where
  pipeline_state : List PipelineRow
  targets : List TargetRow

/-- `alma_ops.db.get_pipeline_state_record`:
`SELECT * FROM pipeline_state WHERE mous_id=?`, first row or `None`. -/
def get_pipeline_state_record (db : DB) (mous_id : Str) : Option PipelineRow :=
  db.pipeline_state.find? (fun r => r.mous_id == mous_id)

/-- `sqlite3.Row.__getitem__` by column name on a `pipeline_state` row;
`Option.none` models the `IndexError` on an unknown column. -/
def PipelineRow.col (r : PipelineRow) (column : Str) : Option PyVal :=
  if column = str "mous_id" then some (PyVal.pstr r.mous_id)
  else if column = str "download_status" then some r.download_status
  else if column = str "download_url" then some r.download_url
  else if column = str "mous_directory" then some r.mous_directory
  else if column = str "calibrated_products" then some r.calibrated_products
  else if column = str "pre_selfcal_split_status" then
    some r.pre_selfcal_split_status
  else if column = str "split_products_path" then some r.split_products_path
  else if column = str "pre_selfcal_listobs_status" then
    some r.pre_selfcal_listobs_status
  else if column = str "preferred_datacolumn" then some r.preferred_datacolumn
  else if column = str "raw_data_spectral_remap" then
    some r.raw_data_spectral_remap
  else Option.none

/-- `alma_ops.db.get_pipeline_state_record_column_value`: fetch one column
of the unit's row and parse it with `parse_json_safe`; returns `None`
(`PyVal.none`) when the unit has no row. -/
def get_pipeline_state_record_column_value (db : DB) (mous_id column : Str) :
    Except PyErr PyVal :=
  match get_pipeline_state_record db mous_id with
  | Option.none => Except.ok PyVal.none
  | some row =>
    match row.col column with
    | Option.none => Except.error PyErr.indexError
    | some raw => Except.ok (parse_json_safe raw)

-- =====================================================================
-- alma_ops/db.py : spw remap and spw mapping
-- =====================================================================

/-- Python `int(s)` on a string: optional surrounding whitespace, optional
sign, then a non-empty digit run. -/
def pyIntOfStr (s : Str) : Option ℤ :=
  let t := pyStrip s
  let (neg, u) : Bool × Str := match t with
    | '-' :: u => (true, u)
    | '+' :: u => (false, u)
    | _ => (false, t)
  if u ≠ [] ∧ u.all Char.isDigit then
    let n : ℕ := u.foldl (fun a c => a * 10 + (c.toNat - 48)) 0
    some (if neg then -(n : ℤ) else (n : ℤ))
  else Option.none

/-- Python `int(v)` on an arbitrary value. -/
def pyInt : PyVal → Except PyErr ℤ
  | PyVal.int n => Except.ok n
  | PyVal.bool b => Except.ok (if b then 1 else 0)
  | PyVal.pstr s =>
    match pyIntOfStr s with
    | some n => Except.ok n
    | Option.none => Except.error PyErr.intParseError
  | _ => Except.error PyErr.typeError

/-- Insert into an integer-keyed dict, overwriting in place. -/
def intDictInsert (l : List (ℤ × ℤ)) (k v : ℤ) : List (ℤ × ℤ) :=
  match l with
  | [] => [(k, v)]
  | (k', v') :: rest =>
    if k' = k then (k', v) :: rest else (k', v') :: intDictInsert rest k v

/-- `alma_ops.db.get_spw_remap`: read `raw_data_spectral_remap`, parse it
as JSON (raising `ValueError` on invalid JSON), and convert to an
int-keyed dict via `{int(k): int(v) for k, v in raw.items()}`. -/
def get_spw_remap (db : DB) (mous_id : Str) :
    Except PyErr (Option (List (ℤ × ℤ))) :=
  match get_pipeline_state_record db mous_id with
  | Option.none => Except.ok Option.none
  | some row =>
    match row.raw_data_spectral_remap with
    | PyVal.none => Except.ok Option.none
    | PyVal.pstr v =>
      match jsonLoads v with
      | Option.none => Except.error PyErr.invalidRemapJson
      | some (PyVal.dict kvs) =>
        (kvs.foldlM (fun acc (kv : Str × PyVal) => do
          let ki ← pyInt (PyVal.pstr kv.1)
          let vi ← pyInt kv.2
          pure (intDictInsert acc ki vi)) []).map some
      | some _ => Except.error PyErr.attributeError
    | _ => Except.error PyErr.typeError

/-- The regex `\.spw\.(\d+)$`: the maximal trailing digit run, provided it
is non-empty and preceded by the literal `.spw.`. -/
def extractSpw (s : Str) : Option ℕ :=
  let rev := s.reverse
  let ds := rev.takeWhile Char.isDigit
  if ds.isEmpty then Option.none
  else if (str ".wps.").isPrefixOf (rev.drop ds.length) then
    some (ds.reverse.foldl (fun a c => a * 10 + (c.toNat - 48)) 0)
  else Option.none

/-- `if spw_remap and spw in spw_remap: spw = spw_remap[spw]`. -/
def applyRemap (remap : Option (List (ℤ × ℤ))) (spw : ℤ) : ℤ :=
  match remap with
  | Option.none => spw
  | some l =>
    if l.isEmpty then spw
    else
      match l.lookup spw with
      | some v => v
      | Option.none => spw

/-- A Python `set` of ints as a duplicate-free list: `s.add(n)`. -/
def setAdd (v : List ℤ) (n : ℤ) : List ℤ :=
  if n ∈ v then v else n :: v

/-- `spw_map.setdefault(source, set()).add(spw)`. -/
def spwMapInsert (m : List (Str × List ℤ)) (src : Str) (n : ℤ) :
    List (Str × List ℤ) :=
  match m with
  | [] => [(src, [n])]
  | (k, v) :: rest =>
    if k = src then (k, setAdd v n) :: rest
    else (k, v) :: spwMapInsert rest src n

/-- The accumulation loop of `get_mous_spw_mapping`. -/
def buildSpwMap (remap : Option (List (ℤ × ℤ))) :
    List (Str × Option Str) → List (Str × List ℤ) → List (Str × List ℤ)
  | [], m => m
  | (src, obs) :: rest, m =>
    match extractSpw (obs.getD []) with
    | Option.none => buildSpwMap remap rest m
    | some n => buildSpwMap remap rest (spwMapInsert m src (applyRemap remap (n : ℤ)))

/-- `alma_ops.db.get_mous_spw_mapping`: per-source sorted spw lists, with
the per-unit remap applied when present. -/
def get_mous_spw_mapping (db : DB) (mous_id : Str) :
    Except PyErr (List (Str × List ℤ)) := do
  let rows := (db.targets.filter (fun t => t.mous_id == mous_id)).map
    (fun t => (t.alma_source_name, t.obs_id))
  let remap ← get_spw_remap db mous_id
  let m := buildSpwMap remap rows []
  pure (m.map (fun p => (p.1, p.2.insertionSort (· ≤ ·))))

-- =====================================================================
-- Stage validators
-- =====================================================================

/-- `flows/mous_download.validate_mous_download_status`: the unit must have
a row whose `download_status` is `'pending'` and a truthy `download_url`;
returns `(download_status, url)`. -/
def validate_mous_download_status (db : DB) (mous_id : Str) :
    Except PyErr (PyVal × PyVal) :=
  match get_pipeline_state_record db mous_id with
  | Option.none => Except.error (PyErr.notFound mous_id)
  | some row =>
    if ¬ row.download_status.eqStr (str "pending") then
      Except.error (PyErr.badStatus (str "download_status") mous_id
        row.download_status [str "pending"])
    else if ¬ pyTruthy row.download_url then
      Except.error (PyErr.missingUrl mous_id)
    else
      Except.ok (row.download_status, row.download_url)

/-- `flows/mous_split.validate_mous_preselfcal_split_status`: the unit must
have `pre_selfcal_split_status == 'pending'` and `download_status ==
'complete'` (checked in that order). -/
def validate_mous_preselfcal_split_status (db : DB) (mous_id : Str) :
    Except PyErr Unit :=
  match get_pipeline_state_record db mous_id with
  | Option.none => Except.error (PyErr.notFound mous_id)
  | some row =>
    if ¬ row.pre_selfcal_split_status.eqStr (str "pending") then
      Except.error (PyErr.badStatus (str "pre_selfcal_split_status") mous_id
        row.pre_selfcal_split_status [str "pending"])
    else if ¬ row.download_status.eqStr (str "complete") then
      Except.error (PyErr.badStatus (str "download_status") mous_id
        row.download_status [str "complete"])
    else
      Except.ok ()

/-- `flows/mous_post_split_listobs.validate_mous_split_status`: the unit
must have `pre_selfcal_split_status == 'complete'` (only — `'split'` is
rejected) and `pre_selfcal_listobs_status == 'pending'`. -/
def validate_mous_split_status (db : DB) (mous_id : Str) :
    Except PyErr Unit :=
  match get_pipeline_state_record db mous_id with
  | Option.none => Except.error (PyErr.notFound mous_id)
  | some row =>
    if ¬ row.pre_selfcal_split_status.eqStr (str "complete") then
      Except.error (PyErr.badStatus (str "pre_selfcal_split_status") mous_id
        row.pre_selfcal_split_status [str "complete"])
    else if ¬ row.pre_selfcal_listobs_status.eqStr (str "pending") then
      Except.error (PyErr.badStatus (str "pre_selfcal_listobs_status") mous_id
        row.pre_selfcal_listobs_status [str "pending"])
    else
      Except.ok ()

/-- The `post_split_listobs` trigger loop of
`flows/pipeline_state_monitor.database_monitor_flow`: the monitor queues a
listobs trigger for every row with `pre_selfcal_split_status == 'complete'`
and `pre_selfcal_listobs_status == 'pending'`. -/
def monitorListobsTriggers (db : DB) : List Str :=
  (db.pipeline_state.filter (fun r =>
    r.pre_selfcal_split_status.eqStr (str "complete")
      && r.pre_selfcal_listobs_status.eqStr (str "pending"))).map
    (fun r => r.mous_id)

-- =====================================================================
-- json.dumps and the generic record update (update_*_record)
-- =====================================================================

def hexDigit (n : ℕ) : Char :=
  if n < 10 then Char.ofNat (48 + n) else Char.ofNat (87 + n)

/-- `json.dumps` escaping for one string character. -/
def jsonEscapeChar (c : Char) : Str :=
  if c = '"' then ['\\', '"']
  else if c = '\\' then ['\\', '\\']
  else if c = '\n' then ['\\', 'n']
  else if c = '\t' then ['\\', 't']
  else if c = '\r' then ['\\', 'r']
  else if c = '\x08' then ['\\', 'b']
  else if c = '\x0c' then ['\\', 'f']
  else if c.toNat < 32 then
    ['\\', 'u', '0', '0', hexDigit (c.toNat / 16), hexDigit (c.toNat % 16)]
  else [c]

def jsonEscape (s : Str) : Str := (s.map jsonEscapeChar).join

/-- Decimal representation of an integer. -/
def intStr (n : ℤ) : Str := (toString n).data

mutual

/-- `json.dumps` with default separators. -/
def jsonDump : PyVal → Str
  | PyVal.none => str "null"
  | PyVal.bool true => str "true"
  | PyVal.bool false => str "false"
  | PyVal.int n => intStr n
  | PyVal.pstr s => '"' :: (jsonEscape s ++ ['"'])
  | PyVal.list xs =>
    '[' :: (List.intercalate (str ", ") (jsonDumpList xs) ++ [']'])
  | PyVal.dict kvs =>
    '\x7b' :: (List.intercalate (str ", ") (jsonDumpKvs kvs) ++ ['\x7d'])

def jsonDumpList : List PyVal → List Str
  | [] => []
  | v :: rest => jsonDump v :: jsonDumpList rest

def jsonDumpKvs : List (Str × PyVal) → List Str
  | [] => []
  | (k, v) :: rest =>
    ('"' :: (jsonEscape k ++ '"' :: ':' :: ' ' :: jsonDump v)) :: jsonDumpKvs rest

end

/-- The per-field serialization of `update_pipeline_state_record` /
`update_mous_record`: lists and dicts are JSON-serialized, everything else
is stored as-is. -/
def serializeField (v : PyVal) : PyVal :=
  match v with
  | PyVal.list _ => PyVal.pstr (jsonDump v)
  | PyVal.dict _ => PyVal.pstr (jsonDump v)
  | v => v

/-- A row of a generic table: the primary key and the named cells. -/
structure GenRow where
  mous_id : Str
  cells : List (Str × PyVal)

/-- A generic table: the column names and the rows. -/
structure GenTable where
  schema : List Str
  rows : List GenRow

/-- `UPDATE ... SET c1=?, ..., cn=? WHERE mous_id=?` applied to one row's
cells: every listed column is overwritten (with the serialized value),
every other cell kept. -/
def setCells (cells : List (Str × PyVal)) (serFields : List (Str × PyVal)) :
    List (Str × PyVal) :=
  cells.map (fun cell =>
    match serFields.lookup cell.1 with
    | some v => (cell.1, v)
    | Option.none => cell)

/-- `alma_ops.db.update_pipeline_state_record`: with no fields it returns
without touching the database; otherwise it runs a single `UPDATE`
statement on the rows whose `mous_id` matches (an unknown column raises
`sqlite3.OperationalError`, modelled as `Except.error`). -/
def update_pipeline_state_record (tbl : GenTable) (mous_id : Str)
    (fields : List (Str × PyVal)) : Except PyErr GenTable :=
  if fields.isEmpty then Except.ok tbl
  else if ¬ fields.all (fun f => tbl.schema.contains f.1) then
    Except.error PyErr.indexError
  else
    let serFields := fields.map (fun f => (f.1, serializeField f.2))
    Except.ok ⟨tbl.schema, tbl.rows.map (fun r =>
      if r.mous_id == mous_id then ⟨r.mous_id, setCells r.cells serFields⟩
      else r)⟩

/-- `alma_ops.db.update_mous_record`: identical logic on the `mous`
table. -/
def update_mous_record (tbl : GenTable) (mous_id : Str)
    (fields : List (Str × PyVal)) : Except PyErr GenTable :=
  if fields.isEmpty then Except.ok tbl
  else if ¬ fields.all (fun f => tbl.schema.contains f.1) then
    Except.error PyErr.indexError
  else
    let serFields := fields.map (fun f => (f.1, serializeField f.2))
    Except.ok ⟨tbl.schema, tbl.rows.map (fun r =>
      if r.mous_id == mous_id then ⟨r.mous_id, setCells r.cells serFields⟩
      else r)⟩

-- =====================================================================
-- flows/mous_download.py : monitor_download_headless_session
-- =====================================================================

/-- One poll of `session.info(ids=job_id)`:
* `empty` — a falsy response (`if not session_info`);
* `status s` — a response carrying `session_info[0]["status"] == s`;
* `transientError` — the query raised a non-`RuntimeError` exception. -/
inductive PollResponse where
  | empty
  | status (s : Str)
  | transientError

/-- The observable state of the monitor loop once the supplied responses
are consumed:
* `success` — the task returned `True` (status `Succeeded`);
* `failure e` — the task raised `e`;
* `polling c` — still looping, with `c` consecutive empty/ambiguous
  responses accumulated so far. -/
inductive MonitorOutcome where
  | success
  | failure (e : PyErr)
  | polling (counter : ℕ)

/-- The `while True` polling loop, one step per supplied response.
`max_empty_responses = 3`; an empty response or transient error increments
the consecutive counter and raises once it reaches 3 (`jobLost` for the
empty case, the re-raised original exception — modelled `envFailure` — for
the transient case); a terminal status returns or raises
`RuntimeError(f"Job failed with status: {s}")`; any other status resets the
counter and polls again after the fixed 60s sleep. -/
def monitorLoop (job_id : Str) : ℕ → List PollResponse → MonitorOutcome
  | counter, [] => MonitorOutcome.polling counter
  | counter, PollResponse.empty :: rest =>
    if counter + 1 ≥ 3 then MonitorOutcome.failure (PyErr.jobLost job_id)
    else monitorLoop job_id (counter + 1) rest
  | counter, PollResponse.transientError :: rest =>
    if counter + 1 ≥ 3 then MonitorOutcome.failure PyErr.envFailure
    else monitorLoop job_id (counter + 1) rest
  | _, PollResponse.status s :: rest =>
    if s == str "Succeeded" then MonitorOutcome.success
    else if s == str "Failed" || s == str "Terminated" then
      MonitorOutcome.failure (PyErr.jobFailed s)
    else monitorLoop job_id 0 rest

/-- `flows/mous_download.monitor_download_headless_session`, as a function
of the sequence of poll responses. -/
def monitor_download_headless_session (job_id : Str)
    (responses : List PollResponse) : MonitorOutcome :=
  monitorLoop job_id 0 responses

/-- A still-polling prefix composes with the remaining responses. -/
theorem monitorLoop_append {job_id : Str} {pre : List PollResponse}
    {k c : ℕ} (h : monitorLoop job_id k pre = MonitorOutcome.polling c)
    (rest : List PollResponse) :
    monitorLoop job_id k (pre ++ rest) = monitorLoop job_id c rest := by
  induction pre generalizing k with
  | nil =>
    simp only [monitorLoop] at h
    cases h
    simp
  | cons r pre' ih =>
    cases r with
    | empty =>
      simp only [monitorLoop] at h ⊢
      by_cases hc : k + 1 ≥ 3
      · rw [if_pos hc] at h
        exact absurd h (by simp)
      · rw [if_neg hc] at h ⊢
        exact ih h
    | transientError =>
      simp only [monitorLoop] at h ⊢
      by_cases hc : k + 1 ≥ 3
      · rw [if_pos hc] at h
        exact absurd h (by simp)
      · rw [if_neg hc] at h ⊢
        exact ih h
    | status s =>
      simp only [monitorLoop] at h ⊢
      by_cases hs : s == str "Succeeded"
      · rw [if_pos hs] at h
        exact absurd h (by simp)
      · rw [if_neg hs] at h ⊢
        by_cases hf : (s == str "Failed" || s == str "Terminated") = true
        · rw [if_pos hf] at h
          exact absurd h (by simp)
        · rw [if_neg hf] at h ⊢
          exact ih h

-- =====================================================================
-- Path helpers (pathlib operations used by the payload builders)
-- =====================================================================

/-- `Path(p).name`: the final path component. -/
def pathName (p : Str) : Str := (pySplit '/' p).getLastD p

/-- `Path(p).stem`: the final component without its last suffix (a name
whose only dot is leading has no suffix). -/
def pathStem (p : Str) : Str :=
  let nm := pathName p
  let rev := nm.reverse
  match rev.dropWhile (fun c => c ≠ '.') with
  | [] => nm
  | _ :: rest => if rest.isEmpty then nm else rest.reverse

/-- `Path(a) / b`. -/
def pathJoin (a b : Str) : Str := a ++ '/' :: b

-- =====================================================================
-- flows/mous_split.py + flows/mous_post_split_listobs.py :
-- job payload builders, and alma_ops/casa_driver.py : their consumer
-- =====================================================================

/-- Python `str(v)` (containers, which never occur here, are approximated
by their JSON form). -/
def pyStr : PyVal → Str
  | PyVal.pstr s => s
  | PyVal.none => str "None"
  | PyVal.bool true => str "True"
  | PyVal.bool false => str "False"
  | PyVal.int n => intStr n
  | v => jsonDump v

/-- One `split` task entry of `build_split_job_payload` (note: the entry
carries an `intent` key and no `field` key). -/
def splitTaskEntry (spws : List (Str × List ℤ)) (data_column : PyVal)
    (splits_dir cp : Str) : PyVal :=
  let product_name := pathStem cp
  let out_ms := pathJoin splits_dir (product_name ++ str "_targets.ms")
  let spw_str := pyJoin ',' (spws.map (fun p => p.1))
  PyVal.dict [(str "task", PyVal.pstr (str "split")),
              (str "vis", PyVal.pstr cp),
              (str "outputvis", PyVal.pstr out_ms),
              (str "intent", PyVal.pstr (str "*OBSERVE_TARGET*")),
              (str "spw", PyVal.pstr spw_str),
              (str "datacolumn", PyVal.pstr (pyStr data_column))]

/-- `flows/mous_split.build_split_job_payload`: reads the spw mapping
(raising `RuntimeError` when empty) and the preferred datacolumn
(defaulting to `'data'`), builds one `split` task per calibrated product,
and returns the payload together with the list of `outputvis` paths. -/
def build_split_job_payload (db : DB) (mous_id : Str)
    (platform_db_path : Str) (calibrated_products : List Str)
    (mous_dir splits_dir : Str) : Except PyErr (PyVal × List Str) := do
  let spws ← get_mous_spw_mapping db mous_id
  if spws.isEmpty then
    throw (PyErr.noTargets mous_id)
  let preferred ← get_pipeline_state_record_column_value db mous_id
    (str "preferred_datacolumn")
  let data_column := match preferred with
    | PyVal.none => PyVal.pstr (str "data")
    | v => v
  let tasks := calibrated_products.map (splitTaskEntry spws data_column splits_dir)
  let payload := PyVal.dict
    [(str "mous_id", PyVal.pstr mous_id),
     (str "db_path", PyVal.pstr platform_db_path),
     (str "mous_dir", PyVal.pstr mous_dir),
     (str "tasks", PyVal.list tasks)]
  let outputvis_path_list := tasks.filterMap (fun t =>
    match t with
    | PyVal.dict kvs =>
      match kvs.lookup (str "outputvis") with
      | some (PyVal.pstr s) => some s
      | _ => Option.none
    | _ => Option.none)
  pure (payload, outputvis_path_list)

/-- One `listobs` task entry of `build_listobs_job_payload`; the listfile
is `ms_path.with_suffix(ms_path.suffix + ".listobs.txt")`, i.e. the input
path with `.listobs.txt` appended. -/
def listobsTaskEntry (p : Str) : PyVal :=
  PyVal.dict [(str "task", PyVal.pstr (str "listobs")),
              (str "vis", PyVal.pstr p),
              (str "listfile", PyVal.pstr (p ++ str ".listobs.txt"))]

/-- `flows/mous_post_split_listobs.build_listobs_job_payload`. -/
def build_listobs_job_payload (mous_id platform_db_path platform_datasets_dir : Str)
    (platform_calibrated_products_path platform_split_products_path : List Str) :
    PyVal :=
  let tasks := platform_calibrated_products_path.map listobsTaskEntry
    ++ platform_split_products_path.map listobsTaskEntry
  PyVal.dict
    [(str "mous_id", PyVal.pstr mous_id),
     (str "db_path", PyVal.pstr platform_db_path),
     (str "datasets_dir", PyVal.pstr platform_datasets_dir),
     (str "tasks", PyVal.list tasks)]

/-- A CASA task invocation made by `casa_driver.py` (`skipped` models a
task whose discriminator matches neither branch — the loop ignores it). -/
inductive CasaCall where
  | split (vis outputvis field spw datacolumn : PyVal)
  | listobs (vis listfile verbose : PyVal)
  | skipped

/-- `task[key]` on a manifest entry: `KeyError` when absent. -/
def dictRequire (kvs : List (Str × PyVal)) (k : Str) : Except PyErr PyVal :=
  match kvs.lookup k with
  | some v => Except.ok v
  | Option.none => Except.error (PyErr.keyError k)

/-- One iteration of the `casa_driver.py` task loop. -/
def casa_driver_run_task (t : PyVal) : Except PyErr CasaCall :=
  match t with
  | PyVal.dict kvs => do
    let name ← dictRequire kvs (str "task")
    if name.eqStr (str "split") then do
      let vis ← dictRequire kvs (str "vis")
      let outputvis ← dictRequire kvs (str "outputvis")
      let field ← dictRequire kvs (str "field")
      let spw ← dictRequire kvs (str "spw")
      let datacolumn := (kvs.lookup (str "datacolumn")).getD
        (PyVal.pstr (str "data"))
      pure (CasaCall.split vis outputvis field spw datacolumn)
    else if name.eqStr (str "listobs") then do
      let vis ← dictRequire kvs (str "vis")
      let listfile ← dictRequire kvs (str "listfile")
      let verbose := (kvs.lookup (str "verbose")).getD (PyVal.bool true)
      pure (CasaCall.listobs vis listfile verbose)
    else
      pure CasaCall.skipped
  | _ => Except.error PyErr.typeError

/-- The `__main__` body of `alma_ops/casa_driver.py`: execute every task of
the manifest in order; the first `KeyError` aborts the run. -/
def casa_driver_main (config : PyVal) : Except PyErr (List CasaCall) :=
  match config with
  | PyVal.dict kvs =>
    match kvs.lookup (str "tasks") with
    | some (PyVal.list ts) => ts.mapM casa_driver_run_task
    | some _ => Except.error PyErr.typeError
    | Option.none => Except.error (PyErr.keyError (str "tasks"))
  | _ => Except.error PyErr.typeError

-- =====================================================================
-- alma_ops/downloads/organize.py : the staging-directory walk
-- =====================================================================

/-- A directory tree (only directories matter to the walk: the classifier
looks at `dirs`, never `files`). -/
inductive FsTree where
  | node (name : Str) (subdirs : List FsTree)

def FsTree.name : FsTree → Str
  | FsTree.node nm _ => nm

def FsTree.subdirs : FsTree → List FsTree
  | FsTree.node _ subs => subs

/-- `d.endswith(".ms")`. -/
def endsWithMs (nm : Str) : Bool := (str "sm.").isPrefixOf nm.reverse

/-- `d == "weblog_restore"`. -/
def isWeblogName (nm : Str) : Bool := nm == str "weblog_restore"

/-- A directory name matched (and pruned) by either classifier branch. -/
def isMatchedName (nm : Str) : Bool := endsWithMs nm || isWeblogName nm

/-- The `.ms`-suffixed children of the current directory, in order. -/
def msHereOf (l : List FsTree) : List (List Str) :=
  (l.filter (fun c => endsWithMs c.name)).map (fun c => [c.name])

/-- The `weblog_restore` children of the current directory (the `elif`
branch), in order. -/
def wbHereOf (l : List FsTree) : List (List Str) :=
  (l.filter (fun c => !endsWithMs c.name && isWeblogName c.name)).map
    (fun c => [c.name])

mutual

/-- The `os.walk(tmpdir)` loop of `organize_downloaded_files`: classify the
current directory's children (`.ms` suffix first, then the literal
`weblog_restore`), prune matched children from the traversal, then walk
the remaining children in order.  Paths are returned as segment lists
relative to the walk root. -/
def osWalkClassify : FsTree → List (List Str) × List (List Str)
  | FsTree.node _ subs =>
    (msHereOf subs ++ (osWalkChildren subs).1,
     wbHereOf subs ++ (osWalkChildren subs).2)

/-- Walk the unpruned children in order, prefixing their results. -/
def osWalkChildren : List FsTree → List (List Str) × List (List Str)
  | [] => ([], [])
  | c :: rest =>
    let tail := osWalkChildren rest
    if isMatchedName c.name then tail
    else
      let r := osWalkClassify c
      (r.1.map (fun p => c.name :: p) ++ tail.1,
       r.2.map (fun p => c.name :: p) ++ tail.2)

end

mutual

/-- All strict descendants of a tree, as segment paths. -/
def descSegs : FsTree → List (List Str)
  | FsTree.node _ subs => descSegsList subs

def descSegsList : List FsTree → List (List Str)
  | [] => []
  | c :: rest =>
    [c.name] :: ((descSegs c).map (fun p => c.name :: p) ++ descSegsList rest)

end

/-- The data products the specification describes: descendants whose name
ends with `.ms` and all of whose proper ancestors (below the root) are
unmatched. -/
def specMsSegs (t : FsTree) : List (List Str) :=
  (descSegs t).filterMap (fun p =>
    if endsWithMs (p.getLastD []) && p.dropLast.all (fun a => !isMatchedName a)
    then some p else Option.none)

/-- The report bundles the specification describes: descendants named
exactly `weblog_restore` with all proper ancestors unmatched. -/
def specWbSegs (t : FsTree) : List (List Str) :=
  (descSegs t).filterMap (fun p =>
    if (!endsWithMs (p.getLastD []) && isWeblogName (p.getLastD []))
        && p.dropLast.all (fun a => !isMatchedName a)
    then some p else Option.none)

mutual

/-- Well-formed staging tree: sibling names are distinct, and every
directory name is free of the path separator. -/
def wfTree : FsTree → Bool
  | FsTree.node _ subs =>
    ((subs.map FsTree.name).Nodup : Bool) && wfTreeList subs

def wfTreeList : List FsTree → Bool
  | [] => true
  | c :: rest => c.name.all (fun ch => ch ≠ '/') && wfTree c && wfTreeList rest

end

/-- `os.path.join` chain below the root: `/seg1/seg2/...`. -/
def segSuffix (segs : List Str) : Str :=
  (segs.map (fun s => '/' :: s)).flatten

/-- Python `sorted(set(l))` for a list of strings (lexicographic by code
point, duplicates removed). -/
def pySortedSet (l : List Str) : List Str :=
  l.dedup.insertionSort (· ≤ ·)

/-- The observable outcome of `organize_downloaded_files`:
`ms_dirs`/`weblog_dirs` are the discovered (sorted, deduplicated) source
paths, `created_dirs` the `mkdir(parents=True, exist_ok=True)` targets,
`ms_moves`/`weblog_moves` the `shutil.move` calls in order, `asdm_paths`
the returned list of new data-product paths, and `warnings` the non-fatal
`log.warning` messages for empty buckets. -/
structure OrganizeResult where
  ms_dirs : List Str
  weblog_dirs : List Str
  dest_root : Str
  weblog_dest_root : Str
  created_dirs : List Str
  ms_moves : List (Str × Str)
  weblog_moves : List (Str × Str)
  asdm_paths : List Str
  moved_ms : Bool
  moved_weblog : Bool
  warnings : List Str

/-- `alma_ops.downloads.organize.organize_downloaded_files`: walk the
staging directory, sort and deduplicate both buckets, always create both
destination roots, move every matched entry, warn (without failing) on an
empty bucket, and return the new data-product paths. -/
def organize_downloaded_files (mous_id tmpdirPath : Str) (tmpdir : FsTree)
    (download_dir weblog_dir : Str) : Except PyErr OrganizeResult :=
  match to_dir_mous_id mous_id with
  | Except.error _ => Except.error (PyErr.invalidIdFormat mous_id)
  | Except.ok mous_dir_name =>
    let buckets := osWalkClassify tmpdir
    let ms_dirs := pySortedSet (buckets.1.map (fun p => tmpdirPath ++ segSuffix p))
    let weblog_dirs :=
      pySortedSet (buckets.2.map (fun p => tmpdirPath ++ segSuffix p))
    let dest_root := pathJoin download_dir mous_dir_name
    let weblog_dest_root :=
      pathJoin (pathJoin weblog_dir mous_dir_name) (str "weblog_restore")
    let ms_moves := ms_dirs.map (fun ms => (ms, pathJoin dest_root (pathName ms)))
    let weblog_moves := weblog_dirs.map (fun wb =>
      (wb, pathJoin weblog_dest_root (pathName wb)))
    Except.ok
      { ms_dirs := ms_dirs
        weblog_dirs := weblog_dirs
        dest_root := dest_root
        weblog_dest_root := weblog_dest_root
        created_dirs := [dest_root, weblog_dest_root]
        ms_moves := ms_moves
        weblog_moves := weblog_moves
        asdm_paths := ms_moves.map (fun m => m.2)
        moved_ms := !ms_dirs.isEmpty
        moved_weblog := !weblog_dirs.isEmpty
        warnings :=
          (if ms_dirs.isEmpty then [str "No .ms directories found."] else [])
            ++ (if weblog_dirs.isEmpty then [str "No weblog_restore found."]
                else []) }

/-- The filter of `specMsSegs`, as a Bool condition. -/
def msCond (p : List Str) : Bool :=
  endsWithMs (p.getLastD []) && p.dropLast.all (fun a => !isMatchedName a)

/-- The filter of `specWbSegs`, as a Bool condition. -/
def wbCond (p : List Str) : Bool :=
  (!endsWithMs (p.getLastD []) && isWeblogName (p.getLastD []))
    && p.dropLast.all (fun a => !isMatchedName a)

theorem specMsSegs_eq (t : FsTree) :
    specMsSegs t
      = (descSegs t).filterMap (fun p => if msCond p then some p else Option.none) := by
  rfl

theorem specWbSegs_eq (t : FsTree) :
    specWbSegs t
      = (descSegs t).filterMap (fun p => if wbCond p then some p else Option.none) := by
  rfl

theorem getLastD_of_ne_nil {p : List Str} (h : p ≠ []) (a b : Str) :
    p.getLastD a = p.getLastD b := by
  induction p using List.reverseRecOn with
  | nil => exact absurd rfl h
  | append_singleton q x _ => simp

theorem msCond_cons {nm : Str} {p : List Str} (h : p ≠ []) :
    msCond (nm :: p) = (!isMatchedName nm && msCond p) := by
  unfold msCond
  rw [List.getLastD_cons, getLastD_of_ne_nil h nm [],
    List.dropLast_cons_of_ne_nil h, List.all_cons]
  cases endsWithMs (p.getLastD []) <;> cases isMatchedName nm <;>
    cases p.dropLast.all (fun a => !isMatchedName a) <;> rfl

theorem wbCond_cons {nm : Str} {p : List Str} (h : p ≠ []) :
    wbCond (nm :: p) = (!isMatchedName nm && wbCond p) := by
  unfold wbCond
  rw [List.getLastD_cons, getLastD_of_ne_nil h nm [],
    List.dropLast_cons_of_ne_nil h, List.all_cons]
  cases endsWithMs (p.getLastD []) <;> cases isMatchedName nm <;>
    cases isWeblogName (p.getLastD []) <;>
    cases p.dropLast.all (fun a => !isMatchedName a) <;> rfl

/-- Filtering prefixed paths: a matched prefix kills every entry, an
unmatched prefix passes through. -/
theorem filterMap_cond_prefixed {C : List Str → Bool}
    (hC : ∀ (nm : Str) (p : List Str), p ≠ [] → C (nm :: p) = (!isMatchedName nm && C p))
    (nm : Str) (l : List (List Str)) (hne : ∀ p ∈ l, p ≠ []) :
    (l.map (fun p => nm :: p)).filterMap
        (fun p => if C p then some p else Option.none)
      = if isMatchedName nm then []
        else (l.filterMap (fun p => if C p then some p else Option.none)).map
          (fun p => nm :: p) := by
  induction l with
  | nil => cases isMatchedName nm <;> simp
  | cons q rest ih =>
    have hq : q ≠ [] := hne q (by simp)
    have hrest : ∀ p ∈ rest, p ≠ [] := fun p hp => hne p (by simp [hp])
    have ihr := ih hrest
    cases hm : isMatchedName nm with
    | true =>
      rw [hm] at ihr
      rw [if_pos rfl] at ihr
      simp [List.filterMap_cons, hC nm q hq, hm, ihr]
    | false =>
      rw [hm] at ihr
      rw [if_neg (by simp)] at ihr
      cases hcq : C q with
      | true => simp [List.filterMap_cons, hC nm q hq, hm, hcq, ihr]
      | false => simp [List.filterMap_cons, hC nm q hq, hm, hcq, ihr]

mutual

theorem descSegs_ne_nil (t : FsTree) : ∀ p ∈ descSegs t, p ≠ [] := by
  cases t with
  | node nm subs =>
    intro p hp
    exact descSegsList_ne_nil subs p hp

theorem descSegsList_ne_nil (l : List FsTree) :
    ∀ p ∈ descSegsList l, p ≠ [] := by
  cases l with
  | nil => intro p hp; simp [descSegsList] at hp
  | cons c rest =>
    intro p hp
    simp only [descSegsList, List.mem_cons, List.mem_append,
      List.mem_map] at hp
    rcases hp with rfl | ⟨q, _, rfl⟩ | hp
    · simp
    · simp
    · exact descSegsList_ne_nil rest p hp

end

mutual

theorem walk_ms_ne_nil (t : FsTree) : ∀ p ∈ (osWalkClassify t).1, p ≠ [] := by
  cases t with
  | node nm subs =>
    intro p hp
    simp only [osWalkClassify, List.mem_append] at hp
    rcases hp with hp | hp
    · simp only [msHereOf, List.mem_map, List.mem_filter] at hp
      obtain ⟨c, _, rfl⟩ := hp
      simp
    · exact children_ms_ne_nil subs p hp

theorem children_ms_ne_nil (l : List FsTree) :
    ∀ p ∈ (osWalkChildren l).1, p ≠ [] := by
  cases l with
  | nil => intro p hp; simp [osWalkChildren] at hp
  | cons c rest =>
    intro p hp
    simp only [osWalkChildren] at hp
    by_cases hm : isMatchedName c.name
    · rw [if_pos hm] at hp
      exact children_ms_ne_nil rest p hp
    · rw [if_neg hm] at hp
      simp only [List.mem_append, List.mem_map] at hp
      rcases hp with ⟨q, _, rfl⟩ | hp
      · simp
      · exact children_ms_ne_nil rest p hp

end

mutual

theorem walk_wb_ne_nil (t : FsTree) : ∀ p ∈ (osWalkClassify t).2, p ≠ [] := by
  cases t with
  | node nm subs =>
    intro p hp
    simp only [osWalkClassify, List.mem_append] at hp
    rcases hp with hp | hp
    · simp only [wbHereOf, List.mem_map, List.mem_filter] at hp
      obtain ⟨c, _, rfl⟩ := hp
      simp
    · exact children_wb_ne_nil subs p hp

theorem children_wb_ne_nil (l : List FsTree) :
    ∀ p ∈ (osWalkChildren l).2, p ≠ [] := by
  cases l with
  | nil => intro p hp; simp [osWalkChildren] at hp
  | cons c rest =>
    intro p hp
    simp only [osWalkChildren] at hp
    by_cases hm : isMatchedName c.name
    · rw [if_pos hm] at hp
      exact children_wb_ne_nil rest p hp
    · rw [if_neg hm] at hp
      simp only [List.mem_append, List.mem_map] at hp
      rcases hp with ⟨q, _, rfl⟩ | hp
      · simp
      · exact children_wb_ne_nil rest p hp

end

theorem msCond_single (nm : Str) : msCond [nm] = endsWithMs nm := by
  simp [msCond]

theorem wbCond_single (nm : Str) :
    wbCond [nm] = (!endsWithMs nm && isWeblogName nm) := by
  simp [wbCond]

mutual

/-- The `.ms` bucket of the pruned walk contains exactly the
specification's data products (up to traversal order). -/
theorem walk_ms_perm (t : FsTree) :
    ((osWalkClassify t).1).Perm (specMsSegs t) := by
  cases t with
  | node nm subs =>
    have h := children_ms_perm subs
    simpa [osWalkClassify, specMsSegs_eq, descSegs] using h

theorem children_ms_perm (l : List FsTree) :
    (msHereOf l ++ (osWalkChildren l).1).Perm
      ((descSegsList l).filterMap
        (fun p => if msCond p then some p else Option.none)) := by
  cases l with
  | nil => simp [msHereOf, osWalkChildren, descSegsList]
  | cons c rest =>
    have hpre := filterMap_cond_prefixed (fun nm p h => msCond_cons h)
      c.name (descSegs c) (descSegs_ne_nil c)
    have ihr := children_ms_perm rest
    by_cases hE : endsWithMs c.name = true
    · have hm : isMatchedName c.name = true := by
        simp [isMatchedName, hE]
      rw [if_pos (by rw [hm])] at hpre
      have hL : msHereOf (c :: rest) = [c.name] :: msHereOf rest := by
        simp [msHereOf, List.filter_cons, hE]
      have hWk : (osWalkChildren (c :: rest)).1 = (osWalkChildren rest).1 := by
        simp [osWalkChildren, hm]
      have hR : (descSegsList (c :: rest)).filterMap
          (fun p => if msCond p then some p else Option.none)
          = [c.name] :: (descSegsList rest).filterMap
              (fun p => if msCond p then some p else Option.none) := by
        simp [descSegsList, List.filterMap_cons, List.filterMap_append,
          msCond_single, hE, hpre]
      rw [hL, hWk, hR, List.cons_append]
      exact List.Perm.cons _ ihr
    · by_cases hW : isWeblogName c.name = true
      · have hm : isMatchedName c.name = true := by
          simp [isMatchedName, hW]
        rw [if_pos (by rw [hm])] at hpre
        have hL : msHereOf (c :: rest) = msHereOf rest := by
          simp [msHereOf, List.filter_cons, hE]
        have hWk : (osWalkChildren (c :: rest)).1 = (osWalkChildren rest).1 := by
          simp [osWalkChildren, hm]
        have hR : (descSegsList (c :: rest)).filterMap
            (fun p => if msCond p then some p else Option.none)
            = (descSegsList rest).filterMap
                (fun p => if msCond p then some p else Option.none) := by
          simp [descSegsList, List.filterMap_cons, List.filterMap_append,
            msCond_single, hE, hpre]
        rw [hL, hWk, hR]
        exact ihr
      · have hm : isMatchedName c.name = false := by
          simp [isMatchedName, hE, hW]
        rw [hm] at hpre
        rw [if_neg (by simp)] at hpre
        have hwalk := (walk_ms_perm c).map (fun p => c.name :: p)
        have hL : msHereOf (c :: rest) = msHereOf rest := by
          simp [msHereOf, List.filter_cons, hE]
        have hWk : (osWalkChildren (c :: rest)).1
            = ((osWalkClassify c).1).map (fun p => c.name :: p)
              ++ (osWalkChildren rest).1 := by
          simp [osWalkChildren, hm]
        have hR : (descSegsList (c :: rest)).filterMap
            (fun p => if msCond p then some p else Option.none)
            = (specMsSegs c).map (fun p => c.name :: p)
              ++ (descSegsList rest).filterMap
                (fun p => if msCond p then some p else Option.none) := by
          rw [specMsSegs_eq]
          simp [descSegsList, List.filterMap_cons, List.filterMap_append,
            msCond_single, hE, hpre]
        rw [hL, hWk, hR, ← List.append_assoc]
        refine List.Perm.trans
          (List.Perm.append_right _ List.perm_append_comm) ?_
        rw [List.append_assoc]
        exact List.Perm.append hwalk ihr

end

mutual

/-- The `weblog_restore` bucket of the pruned walk contains exactly the
specification's report bundles (up to traversal order). -/
theorem walk_wb_perm (t : FsTree) :
    ((osWalkClassify t).2).Perm (specWbSegs t) := by
  cases t with
  | node nm subs =>
    have h := children_wb_perm subs
    simpa [osWalkClassify, specWbSegs_eq, descSegs] using h

theorem children_wb_perm (l : List FsTree) :
    (wbHereOf l ++ (osWalkChildren l).2).Perm
      ((descSegsList l).filterMap
        (fun p => if wbCond p then some p else Option.none)) := by
  cases l with
  | nil => simp [wbHereOf, osWalkChildren, descSegsList]
  | cons c rest =>
    have hpre := filterMap_cond_prefixed (fun nm p h => wbCond_cons h)
      c.name (descSegs c) (descSegs_ne_nil c)
    have ihr := children_wb_perm rest
    by_cases hE : endsWithMs c.name = true
    · have hm : isMatchedName c.name = true := by
        simp [isMatchedName, hE]
      rw [if_pos (by rw [hm])] at hpre
      have hL : wbHereOf (c :: rest) = wbHereOf rest := by
        simp [wbHereOf, List.filter_cons, hE]
      have hWk : (osWalkChildren (c :: rest)).2 = (osWalkChildren rest).2 := by
        simp [osWalkChildren, hm]
      have hR : (descSegsList (c :: rest)).filterMap
          (fun p => if wbCond p then some p else Option.none)
          = (descSegsList rest).filterMap
              (fun p => if wbCond p then some p else Option.none) := by
        simp [descSegsList, List.filterMap_cons, List.filterMap_append,
          wbCond_single, hE, hpre]
      rw [hL, hWk, hR]
      exact ihr
    · by_cases hW : isWeblogName c.name = true
      · have hm : isMatchedName c.name = true := by
          simp [isMatchedName, hW]
        rw [if_pos (by rw [hm])] at hpre
        have hL : wbHereOf (c :: rest) = [c.name] :: wbHereOf rest := by
          simp [wbHereOf, List.filter_cons, hE, hW]
        have hWk : (osWalkChildren (c :: rest)).2 = (osWalkChildren rest).2 := by
          simp [osWalkChildren, hm]
        have hR : (descSegsList (c :: rest)).filterMap
            (fun p => if wbCond p then some p else Option.none)
            = [c.name] :: (descSegsList rest).filterMap
                (fun p => if wbCond p then some p else Option.none) := by
          simp [descSegsList, List.filterMap_cons, List.filterMap_append,
            wbCond_single, hE, hW, hpre]
        rw [hL, hWk, hR, List.cons_append]
        exact List.Perm.cons _ ihr
      · have hm : isMatchedName c.name = false := by
          simp [isMatchedName, hE, hW]
        rw [hm] at hpre
        rw [if_neg (by simp)] at hpre
        have hwalk := (walk_wb_perm c).map (fun p => c.name :: p)
        have hL : wbHereOf (c :: rest) = wbHereOf rest := by
          simp [wbHereOf, List.filter_cons, hE, hW]
        have hWk : (osWalkChildren (c :: rest)).2
            = ((osWalkClassify c).2).map (fun p => c.name :: p)
              ++ (osWalkChildren rest).2 := by
          simp [osWalkChildren, hm]
        have hR : (descSegsList (c :: rest)).filterMap
            (fun p => if wbCond p then some p else Option.none)
            = (specWbSegs c).map (fun p => c.name :: p)
              ++ (descSegsList rest).filterMap
                (fun p => if wbCond p then some p else Option.none) := by
          rw [specWbSegs_eq]
          simp [descSegsList, List.filterMap_cons, List.filterMap_append,
            wbCond_single, hE, hW, hpre]
        rw [hL, hWk, hR, ← List.append_assoc]
        refine List.Perm.trans
          (List.Perm.append_right _ List.perm_append_comm) ?_
        rw [List.append_assoc]
        exact List.Perm.append hwalk ihr

end

theorem mem_msHereOf {l : List FsTree} {p : List Str} :
    p ∈ msHereOf l ↔ ∃ c, c ∈ l ∧ endsWithMs c.name = true ∧ p = [c.name] := by
  simp only [msHereOf, List.mem_map, List.mem_filter]
  constructor
  · rintro ⟨c, ⟨hc, he⟩, rfl⟩
    exact ⟨c, hc, he, rfl⟩
  · rintro ⟨c, hc, he, rfl⟩
    exact ⟨c, ⟨hc, he⟩, rfl⟩

theorem mem_wbHereOf {l : List FsTree} {p : List Str} :
    p ∈ wbHereOf l
      ↔ ∃ c, c ∈ l ∧ (!endsWithMs c.name && isWeblogName c.name) = true
          ∧ p = [c.name] := by
  simp only [wbHereOf, List.mem_map, List.mem_filter]
  constructor
  · rintro ⟨c, ⟨hc, he⟩, rfl⟩
    exact ⟨c, hc, he, rfl⟩
  · rintro ⟨c, hc, he, rfl⟩
    exact ⟨c, ⟨hc, he⟩, rfl⟩

theorem children_ms_shape (l : List FsTree) :
    ∀ p ∈ (osWalkChildren l).1, ∃ c, c ∈ l ∧ isMatchedName c.name = false
      ∧ ∃ q ∈ (osWalkClassify c).1, p = c.name :: q := by
  induction l with
  | nil => intro p hp; simp [osWalkChildren] at hp
  | cons c rest ih =>
    intro p hp
    simp only [osWalkChildren] at hp
    by_cases hm : isMatchedName c.name
    · rw [if_pos hm] at hp
      obtain ⟨d, hd, hdm, q, hq, rfl⟩ := ih p hp
      exact ⟨d, List.mem_cons_of_mem c hd, hdm, q, hq, rfl⟩
    · rw [if_neg hm] at hp
      simp only [List.mem_append, List.mem_map] at hp
      rcases hp with ⟨q, hq, rfl⟩ | hp
      · exact ⟨c, List.mem_cons_self c rest,
          Bool.not_eq_true _ ▸ eq_false_of_ne_true hm, q, hq, rfl⟩
      · obtain ⟨d, hd, hdm, q, hq, rfl⟩ := ih p hp
        exact ⟨d, List.mem_cons_of_mem c hd, hdm, q, hq, rfl⟩

theorem children_wb_shape (l : List FsTree) :
    ∀ p ∈ (osWalkChildren l).2, ∃ c, c ∈ l ∧ isMatchedName c.name = false
      ∧ ∃ q ∈ (osWalkClassify c).2, p = c.name :: q := by
  induction l with
  | nil => intro p hp; simp [osWalkChildren] at hp
  | cons c rest ih =>
    intro p hp
    simp only [osWalkChildren] at hp
    by_cases hm : isMatchedName c.name
    · rw [if_pos hm] at hp
      obtain ⟨d, hd, hdm, q, hq, rfl⟩ := ih p hp
      exact ⟨d, List.mem_cons_of_mem c hd, hdm, q, hq, rfl⟩
    · rw [if_neg hm] at hp
      simp only [List.mem_append, List.mem_map] at hp
      rcases hp with ⟨q, hq, rfl⟩ | hp
      · exact ⟨c, List.mem_cons_self c rest,
          Bool.not_eq_true _ ▸ eq_false_of_ne_true hm, q, hq, rfl⟩
      · obtain ⟨d, hd, hdm, q, hq, rfl⟩ := ih p hp
        exact ⟨d, List.mem_cons_of_mem c hd, hdm, q, hq, rfl⟩

mutual

theorem walk_ms_nodup (t : FsTree) (h : wfTree t = true) :
    ((osWalkClassify t).1).Nodup := by
  cases t with
  | node nm subs =>
    simp only [wfTree, Bool.and_eq_true, decide_eq_true_eq] at h
    have goal := children_ms_nodup subs h.1 h.2
    simpa [osWalkClassify] using goal

theorem children_ms_nodup (l : List FsTree)
    (hnames : (l.map FsTree.name).Nodup) (h : wfTreeList l = true) :
    (msHereOf l ++ (osWalkChildren l).1).Nodup := by
  cases l with
  | nil => simp [msHereOf, osWalkChildren]
  | cons c rest =>
    simp only [wfTreeList, Bool.and_eq_true] at h
    obtain ⟨⟨hslash, hwfc⟩, hwfrest⟩ := h
    simp only [List.map_cons, List.nodup_cons, List.mem_map] at hnames
    obtain ⟨hcname, hrestnames⟩ := hnames
    have ihr := children_ms_nodup rest hrestnames hwfrest
    have hdisj0 : (msHereOf rest).Disjoint (osWalkChildren rest).1 :=
      ((List.nodup_append.mp ihr).2.2)
    have hmsr : (msHereOf rest).Nodup := (List.nodup_append.mp ihr).1
    have htailr : ((osWalkChildren rest).1).Nodup :=
      (List.nodup_append.mp ihr).2.1
    by_cases hE : endsWithMs c.name = true
    · have hm : isMatchedName c.name = true := by simp [isMatchedName, hE]
      have hL : msHereOf (c :: rest) = [c.name] :: msHereOf rest := by
        simp [msHereOf, List.filter_cons, hE]
      have hWk : (osWalkChildren (c :: rest)).1 = (osWalkChildren rest).1 := by
        simp [osWalkChildren, hm]
      rw [hL, hWk, List.cons_append, List.nodup_cons]
      refine ⟨?_, ihr⟩
      intro hmem
      rcases List.mem_append.mp hmem with hmem | hmem
      · obtain ⟨d, hd, _, hd2⟩ := mem_msHereOf.mp hmem
        have : c.name = d.name := by
          have := hd2
          simp at this
          exact this
        exact hcname ⟨d, hd, this.symm⟩
      · obtain ⟨d, hd, _, q, hq, hd2⟩ := children_ms_shape rest _ hmem
        have hqne := walk_ms_ne_nil d q hq
        cases q with
        | nil => exact hqne rfl
        | cons x xs => simp at hd2
    · by_cases hW : isWeblogName c.name = true
      · have hm : isMatchedName c.name = true := by simp [isMatchedName, hW]
        have hL : msHereOf (c :: rest) = msHereOf rest := by
          simp [msHereOf, List.filter_cons, hE]
        have hWk : (osWalkChildren (c :: rest)).1 = (osWalkChildren rest).1 := by
          simp [osWalkChildren, hm]
        rw [hL, hWk]
        exact ihr
      · have hm : isMatchedName c.name = false := by
          simp [isMatchedName, hE, hW]
        have hL : msHereOf (c :: rest) = msHereOf rest := by
          simp [msHereOf, List.filter_cons, hE]
        have hWk : (osWalkChildren (c :: rest)).1
            = ((osWalkClassify c).1).map (fun p => c.name :: p)
              ++ (osWalkChildren rest).1 := by
          simp [osWalkChildren, hm]
        rw [hL, hWk]
        have hmapnd : (((osWalkClassify c).1).map (fun p => c.name :: p)).Nodup :=
          (walk_ms_nodup c hwfc).map (fun p q hpq => by
            simpa using hpq)
        rw [List.nodup_append]
        refine ⟨hmsr, ?_, ?_⟩
        · rw [List.nodup_append]
          refine ⟨hmapnd, htailr, ?_⟩
          intro p hp hp'
          simp only [List.mem_map] at hp
          obtain ⟨q, hq, rfl⟩ := hp
          obtain ⟨d, hd, _, q', hq', heq⟩ := children_ms_shape rest _ hp'
          have : c.name = d.name := by
            have := heq
            simp at this
            exact this.1
          exact hcname ⟨d, hd, this.symm⟩
        · intro p hp hp'
          rcases List.mem_append.mp hp' with hp' | hp'
          · simp only [List.mem_map] at hp'
            obtain ⟨q, hq, rfl⟩ := hp'
            obtain ⟨d, hd, _, hd2⟩ := mem_msHereOf.mp hp
            have hqne := walk_ms_ne_nil c q hq
            cases q with
            | nil => exact hqne rfl
            | cons x xs => simp at hd2
          · exact hdisj0 hp hp'

end

mutual

theorem walk_wb_nodup (t : FsTree) (h : wfTree t = true) :
    ((osWalkClassify t).2).Nodup := by
  cases t with
  | node nm subs =>
    simp only [wfTree, Bool.and_eq_true, decide_eq_true_eq] at h
    have goal := children_wb_nodup subs h.1 h.2
    simpa [osWalkClassify] using goal

theorem children_wb_nodup (l : List FsTree)
    (hnames : (l.map FsTree.name).Nodup) (h : wfTreeList l = true) :
    (wbHereOf l ++ (osWalkChildren l).2).Nodup := by
  cases l with
  | nil => simp [wbHereOf, osWalkChildren]
  | cons c rest =>
    simp only [wfTreeList, Bool.and_eq_true] at h
    obtain ⟨⟨hslash, hwfc⟩, hwfrest⟩ := h
    simp only [List.map_cons, List.nodup_cons, List.mem_map] at hnames
    obtain ⟨hcname, hrestnames⟩ := hnames
    have ihr := children_wb_nodup rest hrestnames hwfrest
    have hdisj0 : (wbHereOf rest).Disjoint (osWalkChildren rest).2 :=
      ((List.nodup_append.mp ihr).2.2)
    have hwbr : (wbHereOf rest).Nodup := (List.nodup_append.mp ihr).1
    have htailr : ((osWalkChildren rest).2).Nodup :=
      (List.nodup_append.mp ihr).2.1
    by_cases hE : endsWithMs c.name = true
    · have hm : isMatchedName c.name = true := by simp [isMatchedName, hE]
      have hL : wbHereOf (c :: rest) = wbHereOf rest := by
        simp [wbHereOf, List.filter_cons, hE]
      have hWk : (osWalkChildren (c :: rest)).2 = (osWalkChildren rest).2 := by
        simp [osWalkChildren, hm]
      rw [hL, hWk]
      exact ihr
    · by_cases hW : isWeblogName c.name = true
      · have hm : isMatchedName c.name = true := by simp [isMatchedName, hW]
        have hL : wbHereOf (c :: rest) = [c.name] :: wbHereOf rest := by
          simp [wbHereOf, List.filter_cons, hE, hW]
        have hWk : (osWalkChildren (c :: rest)).2 = (osWalkChildren rest).2 := by
          simp [osWalkChildren, hm]
        rw [hL, hWk, List.cons_append, List.nodup_cons]
        refine ⟨?_, ihr⟩
        intro hmem
        rcases List.mem_append.mp hmem with hmem | hmem
        · obtain ⟨d, hd, _, hd2⟩ := mem_wbHereOf.mp hmem
          have : c.name = d.name := by
            have := hd2
            simp at this
            exact this
          exact hcname ⟨d, hd, this.symm⟩
        · obtain ⟨d, hd, _, q, hq, hd2⟩ := children_wb_shape rest _ hmem
          have hqne := walk_wb_ne_nil d q hq
          cases q with
          | nil => exact hqne rfl
          | cons x xs => simp at hd2
      · have hm : isMatchedName c.name = false := by
          simp [isMatchedName, hE, hW]
        have hL : wbHereOf (c :: rest) = wbHereOf rest := by
          simp [wbHereOf, List.filter_cons, hE, hW]
        have hWk : (osWalkChildren (c :: rest)).2
            = ((osWalkClassify c).2).map (fun p => c.name :: p)
              ++ (osWalkChildren rest).2 := by
          simp [osWalkChildren, hm]
        rw [hL, hWk]
        have hmapnd : (((osWalkClassify c).2).map (fun p => c.name :: p)).Nodup :=
          (walk_wb_nodup c hwfc).map (fun p q hpq => by
            simpa using hpq)
        rw [List.nodup_append]
        refine ⟨hwbr, ?_, ?_⟩
        · rw [List.nodup_append]
          refine ⟨hmapnd, htailr, ?_⟩
          intro p hp hp'
          simp only [List.mem_map] at hp
          obtain ⟨q, hq, rfl⟩ := hp
          obtain ⟨d, hd, _, q', hq', heq⟩ := children_wb_shape rest _ hp'
          have : c.name = d.name := by
            have := heq
            simp at this
            exact this.1
          exact hcname ⟨d, hd, this.symm⟩
        · intro p hp hp'
          rcases List.mem_append.mp hp' with hp' | hp'
          · simp only [List.mem_map] at hp'
            obtain ⟨q, hq, rfl⟩ := hp'
            obtain ⟨d, hd, _, hd2⟩ := mem_wbHereOf.mp hp
            have hqne := walk_wb_ne_nil c q hq
            cases q with
            | nil => exact hqne rfl
            | cons x xs => simp at hd2
          · exact hdisj0 hp hp'

end

theorem wfTreeList_mem {l : List FsTree} (h : wfTreeList l = true) :
    ∀ d ∈ l, (∀ ch ∈ d.name, ch ≠ '/') ∧ wfTree d = true := by
  induction l with
  | nil => intro d hd; simp at hd
  | cons c rest ih =>
    simp only [wfTreeList, Bool.and_eq_true] at h
    obtain ⟨⟨hslash, hwfc⟩, hwfrest⟩ := h
    intro d hd
    rcases List.mem_cons.mp hd with rfl | hd
    · refine ⟨?_, hwfc⟩
      intro ch hch
      have := List.all_eq_true.mp hslash ch hch
      simpa using this
    · exact ih hwfrest d hd

/-- Every segment of every collected path is a directory name of the tree,
hence separator-free in a well-formed tree. -/
theorem walk_slashfree : ∀ (t : FsTree), wfTree t = true →
    ∀ p, (p ∈ (osWalkClassify t).1 ∨ p ∈ (osWalkClassify t).2) →
      ∀ s ∈ p, ∀ c ∈ s, c ≠ '/'
  | FsTree.node nm subs, h => by
    simp only [wfTree, Bool.and_eq_true, decide_eq_true_eq] at h
    have hmem := wfTreeList_mem h.2
    intro p hp s hs
    have hp' : p ∈ msHereOf subs ++ (osWalkChildren subs).1
        ∨ p ∈ wbHereOf subs ++ (osWalkChildren subs).2 := by
      simpa [osWalkClassify] using hp
    rcases hp' with hp' | hp'
    · rcases List.mem_append.mp hp' with hp' | hp'
      · obtain ⟨d, hd, _, rfl⟩ := mem_msHereOf.mp hp'
        simp only [List.mem_singleton] at hs
        subst hs
        exact (hmem d hd).1
      · obtain ⟨d, hd, _, q, hq, rfl⟩ := children_ms_shape subs p hp'
        rcases List.mem_cons.mp hs with rfl | hs
        · exact (hmem d hd).1
        · exact walk_slashfree d (hmem d hd).2 q (Or.inl hq) s hs
    · rcases List.mem_append.mp hp' with hp' | hp'
      · obtain ⟨d, hd, _, rfl⟩ := mem_wbHereOf.mp hp'
        simp only [List.mem_singleton] at hs
        subst hs
        exact (hmem d hd).1
      · obtain ⟨d, hd, _, q, hq, rfl⟩ := children_wb_shape subs p hp'
        rcases List.mem_cons.mp hs with rfl | hs
        · exact (hmem d hd).1
        · exact walk_slashfree d (hmem d hd).2 q (Or.inr hq) s hs
termination_by t => sizeOf t
decreasing_by
  all_goals
    simp_wf
    have h1 : sizeOf d < sizeOf subs := List.sizeOf_lt_of_mem hd
    omega

theorem segSuffix_nil : segSuffix [] = [] := rfl

theorem segSuffix_cons (a : Str) (as : List Str) :
    segSuffix (a :: as) = '/' :: (a ++ segSuffix as) := by
  simp [segSuffix]

/-- Unique decomposition at a separator: if two separator-free blocks are
followed by suffixes that are empty or separator-initial, equal
concatenations force equal parts. -/
theorem slash_decomp : ∀ {a b u v : Str},
    (∀ c ∈ a, c ≠ '/') → (∀ c ∈ b, c ≠ '/') →
    (u = [] ∨ ∃ w, u = '/' :: w) → (v = [] ∨ ∃ w, v = '/' :: w) →
    a ++ u = b ++ v → a = b ∧ u = v := by
  intro a
  induction a with
  | nil =>
    intro b u v _ hb hu _ heq
    cases b with
    | nil => exact ⟨rfl, heq⟩
    | cons y b' =>
      simp only [List.nil_append, List.cons_append] at heq
      rcases hu with rfl | ⟨w, rfl⟩
      · cases heq
      · have : y = '/' := by
          have := heq
          simp at this
          exact this.1.symm
        exact absurd this (hb y (by simp))
  | cons x a' ih =>
    intro b u v ha hb hu hv heq
    cases b with
    | nil =>
      simp only [List.cons_append, List.nil_append] at heq
      rcases hv with rfl | ⟨w, rfl⟩
      · cases heq
      · have : x = '/' := by
          have := heq
          simp at this
          exact this.1
        exact absurd this (ha x (by simp))
    | cons y b' =>
      simp only [List.cons_append, List.cons_eq_cons] at heq
      obtain ⟨rfl, heq⟩ := heq
      have := ih (fun c hc => ha c (List.mem_cons_of_mem x hc))
        (fun c hc => hb c (List.mem_cons_of_mem x hc)) hu hv heq
      exact ⟨by rw [this.1], this.2⟩

theorem segSuffix_shape (p : List Str) :
    segSuffix p = [] ∨ ∃ w, segSuffix p = '/' :: w := by
  cases p with
  | nil => exact Or.inl rfl
  | cons a as => exact Or.inr ⟨a ++ segSuffix as, segSuffix_cons a as⟩

/-- `segSuffix` is injective on separator-free segment lists. -/
theorem segSuffix_inj : ∀ {p q : List Str},
    (∀ s ∈ p, ∀ c ∈ s, c ≠ '/') → (∀ s ∈ q, ∀ c ∈ s, c ≠ '/') →
    segSuffix p = segSuffix q → p = q := by
  intro p
  induction p with
  | nil =>
    intro q _ _ heq
    cases q with
    | nil => rfl
    | cons b bs => rw [segSuffix_nil, segSuffix_cons] at heq; cases heq
  | cons a as ih =>
    intro q hp hq heq
    cases q with
    | nil => rw [segSuffix_nil, segSuffix_cons] at heq; cases heq
    | cons b bs =>
      rw [segSuffix_cons, segSuffix_cons, List.cons_eq_cons] at heq
      have hdec := slash_decomp (hp a (by simp)) (hq b (by simp))
        (segSuffix_shape as) (segSuffix_shape bs) heq.2
      have htail := ih (fun s hs => hp s (List.mem_cons_of_mem a hs))
        (fun s hs => hq s (List.mem_cons_of_mem b hs)) hdec.2
      rw [hdec.1, htail]

-- =====================================================================
-- sorted(set(...)) facts
-- =====================================================================

theorem pySortedSet_sorted (l : List Str) :
    (pySortedSet l).Sorted (· ≤ ·) :=
  List.sorted_insertionSort _ _

theorem pySortedSet_perm (l : List Str) : (pySortedSet l).Perm l.dedup :=
  List.perm_insertionSort _ _

theorem pySortedSet_nodup (l : List Str) : (pySortedSet l).Nodup :=
  ((pySortedSet_perm l).nodup_iff).mpr (List.nodup_dedup l)

theorem pySortedSet_mem (l : List Str) (a : Str) :
    a ∈ pySortedSet l ↔ a ∈ l := by
  rw [(pySortedSet_perm l).mem_iff, List.mem_dedup]

theorem pySortedSet_length_of_nodup {l : List Str} (h : l.Nodup) :
    (pySortedSet l).length = l.length := by
  rw [(pySortedSet_perm l).length_eq, List.dedup_eq_self.mpr h]

/-- **C4**: on any well-formed staging tree with N data-product directories
(`.ms` suffix) and M report bundles (`weblog_restore`) at any depth but not
nested inside another matched directory, `organize_downloaded_files`
discovers exactly those directories (sorted, deduplicated), returns exactly
N data-product paths, performs exactly M report-bundle moves, always
creates both destination roots, and treats an empty bucket as a non-fatal
warning while still succeeding. -/
theorem organize_artifact_split (mous_id tmpdirPath download_dir weblog_dir : Str)
    (t : FsTree) (hwf : wfTree t = true) (nm : Str)
    (hnm : to_dir_mous_id mous_id = Except.ok nm) :
    ∃ r, organize_downloaded_files mous_id tmpdirPath t download_dir weblog_dir
        = Except.ok r
      ∧ r.asdm_paths.length = (specMsSegs t).length
      ∧ r.weblog_moves.length = (specWbSegs t).length
      ∧ r.ms_dirs.Sorted (· ≤ ·) ∧ r.ms_dirs.Nodup
      ∧ r.weblog_dirs.Sorted (· ≤ ·) ∧ r.weblog_dirs.Nodup
      ∧ (∀ s, s ∈ r.ms_dirs
          ↔ ∃ p ∈ specMsSegs t, s = tmpdirPath ++ segSuffix p)
      ∧ (∀ s, s ∈ r.weblog_dirs
          ↔ ∃ p ∈ specWbSegs t, s = tmpdirPath ++ segSuffix p)
      ∧ r.created_dirs = [r.dest_root, r.weblog_dest_root]
      ∧ (specMsSegs t = [] → str "No .ms directories found." ∈ r.warnings)
      ∧ (specWbSegs t = [] → str "No weblog_restore found." ∈ r.warnings) := by
  have hinj1 : ∀ x ∈ (osWalkClassify t).1, ∀ y ∈ (osWalkClassify t).1,
      tmpdirPath ++ segSuffix x = tmpdirPath ++ segSuffix y → x = y := by
    intro x hx y hy hxy
    have hss : segSuffix x = segSuffix y := List.append_cancel_left hxy
    exact segSuffix_inj (walk_slashfree t hwf x (Or.inl hx))
      (walk_slashfree t hwf y (Or.inl hy)) hss
  have hinj2 : ∀ x ∈ (osWalkClassify t).2, ∀ y ∈ (osWalkClassify t).2,
      tmpdirPath ++ segSuffix x = tmpdirPath ++ segSuffix y → x = y := by
    intro x hx y hy hxy
    have hss : segSuffix x = segSuffix y := List.append_cancel_left hxy
    exact segSuffix_inj (walk_slashfree t hwf x (Or.inr hx))
      (walk_slashfree t hwf y (Or.inr hy)) hss
  have hnd1 : (((osWalkClassify t).1).map
      (fun p => tmpdirPath ++ segSuffix p)).Nodup :=
    (walk_ms_nodup t hwf).map_on hinj1
  have hnd2 : (((osWalkClassify t).2).map
      (fun p => tmpdirPath ++ segSuffix p)).Nodup :=
    (walk_wb_nodup t hwf).map_on hinj2
  have hlen1 : (pySortedSet (((osWalkClassify t).1).map
      (fun p => tmpdirPath ++ segSuffix p))).length = (specMsSegs t).length := by
    rw [pySortedSet_length_of_nodup hnd1, List.length_map,
      (walk_ms_perm t).length_eq]
  have hlen2 : (pySortedSet (((osWalkClassify t).2).map
      (fun p => tmpdirPath ++ segSuffix p))).length = (specWbSegs t).length := by
    rw [pySortedSet_length_of_nodup hnd2, List.length_map,
      (walk_wb_perm t).length_eq]
  have hmem1 : ∀ s, s ∈ pySortedSet (((osWalkClassify t).1).map
      (fun p => tmpdirPath ++ segSuffix p))
      ↔ ∃ p ∈ specMsSegs t, s = tmpdirPath ++ segSuffix p := by
    intro s
    rw [pySortedSet_mem, List.mem_map]
    constructor
    · rintro ⟨p, hp, rfl⟩
      exact ⟨p, (walk_ms_perm t).mem_iff.mp hp, rfl⟩
    · rintro ⟨p, hp, rfl⟩
      exact ⟨p, (walk_ms_perm t).mem_iff.mpr hp, rfl⟩
  have hmem2 : ∀ s, s ∈ pySortedSet (((osWalkClassify t).2).map
      (fun p => tmpdirPath ++ segSuffix p))
      ↔ ∃ p ∈ specWbSegs t, s = tmpdirPath ++ segSuffix p := by
    intro s
    rw [pySortedSet_mem, List.mem_map]
    constructor
    · rintro ⟨p, hp, rfl⟩
      exact ⟨p, (walk_wb_perm t).mem_iff.mp hp, rfl⟩
    · rintro ⟨p, hp, rfl⟩
      exact ⟨p, (walk_wb_perm t).mem_iff.mpr hp, rfl⟩
  simp only [organize_downloaded_files, hnm]
  refine ⟨_, rfl, ?_, ?_, ?_, ?_, ?_, ?_, ?_, ?_, ?_, ?_, ?_⟩
  · simpa using hlen1
  · simpa using hlen2
  · exact pySortedSet_sorted _
  · exact pySortedSet_nodup _
  · exact pySortedSet_sorted _
  · exact pySortedSet_nodup _
  · exact hmem1
  · exact hmem2
  · rfl
  · intro hspec
    have hb1 : (osWalkClassify t).1 = [] :=
      List.eq_nil_of_length_eq_zero (by
        rw [(walk_ms_perm t).length_eq, hspec]; rfl)
    simp [hb1, pySortedSet]
  · intro hspec
    have hb2 : (osWalkClassify t).2 = [] :=
      List.eq_nil_of_length_eq_zero (by
        rw [(walk_wb_perm t).length_eq, hspec]; rfl)
    simp [hb2, pySortedSet]

/-- Witness for C4: Scenario E — a staging directory with entries `foo.ms`
and `weblog_restore`. -/
theorem organize_artifact_split_witness :
    wfTree (FsTree.node (str "staging")
        [FsTree.node (str "foo.ms") [], FsTree.node (str "weblog_restore") []])
      = true
  ∧ to_dir_mous_id (str "uid://A001/X123/Xabc")
      = Except.ok (str "uid___A001_X123_Xabc")
  ∧ ∃ r, organize_downloaded_files (str "uid://A001/X123/Xabc")
        (str "/tmp/stage")
        (FsTree.node (str "staging")
          [FsTree.node (str "foo.ms") [],
           FsTree.node (str "weblog_restore") []])
        (str "/data") (str "/weblogs")
        = Except.ok r
      ∧ r.asdm_paths.length
          = (specMsSegs (FsTree.node (str "staging")
              [FsTree.node (str "foo.ms") [],
               FsTree.node (str "weblog_restore") []])).length
      ∧ r.weblog_moves.length
          = (specWbSegs (FsTree.node (str "staging")
              [FsTree.node (str "foo.ms") [],
               FsTree.node (str "weblog_restore") []])).length
      ∧ r.ms_dirs.Sorted (· ≤ ·) ∧ r.ms_dirs.Nodup
      ∧ r.weblog_dirs.Sorted (· ≤ ·) ∧ r.weblog_dirs.Nodup
      ∧ (∀ s, s ∈ r.ms_dirs
          ↔ ∃ p ∈ specMsSegs (FsTree.node (str "staging")
              [FsTree.node (str "foo.ms") [],
               FsTree.node (str "weblog_restore") []]),
            s = str "/tmp/stage" ++ segSuffix p)
      ∧ (∀ s, s ∈ r.weblog_dirs
          ↔ ∃ p ∈ specWbSegs (FsTree.node (str "staging")
              [FsTree.node (str "foo.ms") [],
               FsTree.node (str "weblog_restore") []]),
            s = str "/tmp/stage" ++ segSuffix p)
      ∧ r.created_dirs = [r.dest_root, r.weblog_dest_root]
      ∧ (specMsSegs (FsTree.node (str "staging")
            [FsTree.node (str "foo.ms") [],
             FsTree.node (str "weblog_restore") []]) = [] →
          str "No .ms directories found." ∈ r.warnings)
      ∧ (specWbSegs (FsTree.node (str "staging")
            [FsTree.node (str "foo.ms") [],
             FsTree.node (str "weblog_restore") []]) = [] →
          str "No weblog_restore found." ∈ r.warnings) :=
  ⟨by decide, by rfl,
    organize_artifact_split (str "uid://A001/X123/Xabc") (str "/tmp/stage")
      (str "/data") (str "/weblogs")
      (FsTree.node (str "staging")
        [FsTree.node (str "foo.ms") [], FsTree.node (str "weblog_restore") []])
      (by decide) (str "uid___A001_X123_Xabc") (by rfl)⟩

-- =====================================================================
-- alma_ops/config.py : path-namespace conversion
-- =====================================================================

/-- `config.to_platform_path` on a single string:
`str(path).replace(VM_MOUNT_PREFIX, PLATFORM_PREFIX)`. -/
def to_platform_path (p : Str) : Str :=
  pyReplace (str "/home/ubuntu/canfar_arc/projects/ALMA-SAILS")
    (str "/arc/projects/ALMA-SAILS") p

/-- `config.to_vm_path` on a single string. -/
def to_vm_path (p : Str) : Str :=
  pyReplace (str "/arc/projects/ALMA-SAILS")
    (str "/home/ubuntu/canfar_arc/projects/ALMA-SAILS") p

/-- `config.to_platform_path` on an arbitrary Python value: a list maps
`str(p).replace(...)` over its items, anything else is `str()`-ed and
replaced. -/
def to_platform_path_py (v : PyVal) : PyVal :=
  match v with
  | PyVal.list xs => PyVal.list (xs.map (fun x => PyVal.pstr (to_platform_path (pyStr x))))
  | v => PyVal.pstr (to_platform_path (pyStr v))

-- =====================================================================
-- flows : the three stage-executor flows (download, split, listobs)
-- =====================================================================

/-- `update_pipeline_state_record(conn, mous_id, field=value)` on the
structured row model: rewrite the matching row in place. -/
def dbUpdateRow (db : DB) (mous_id : Str) (f : PipelineRow → PipelineRow) : DB :=
  ⟨db.pipeline_state.map (fun r => if r.mous_id == mous_id then f r else r),
   db.targets⟩

def setDownloadStatus (v : Str) (r : PipelineRow) : PipelineRow :=
  { r with download_status := PyVal.pstr v }

def setSplitStatus (v : Str) (r : PipelineRow) : PipelineRow :=
  { r with pre_selfcal_split_status := PyVal.pstr v }

def setListobsStatus (v : Str) (r : PipelineRow) : PipelineRow :=
  { r with pre_selfcal_listobs_status := PyVal.pstr v }

/-- Environment outcomes for the download flow: the result of
`tempfile.mkdtemp` (`none` models an `OSError`) and the job-id list
returned by `session.create` (empty models a falsy response, which the
task turns into `RuntimeError("Unsuccessful job launch.")`). -/
structure DownloadOracle where
  mkdtemp : Option Str
  sessionCreate : List Str

/-- `flows/mous_download.download_mous_flow`, as a function of the state
store and the environment oracle; returns the flow outcome and the final
state store.  The success path launches the job and returns with the
status still `'in_progress'` (the monitoring/organize block of the source
is commented out); any exception inside the launch try-block writes
`'error'` and re-raises. -/
def download_mous_flow (o : DownloadOracle) (db : DB) (mous_id : Str) :
    Except PyErr Unit × DB :=
  match validate_mous_download_status db mous_id with
  | Except.error e => (Except.error e, db)
  | Except.ok _ =>
    let db1 := dbUpdateRow db mous_id (setDownloadStatus (str "in_progress"))
    match to_dir_mous_id mous_id with
    | Except.error _ =>
      (Except.error (PyErr.invalidIdFormat mous_id),
       dbUpdateRow db1 mous_id (setDownloadStatus (str "error")))
    | Except.ok _dirName =>
      match o.mkdtemp with
      | Option.none =>
        (Except.error PyErr.envFailure,
         dbUpdateRow db1 mous_id (setDownloadStatus (str "error")))
      | some tmpdir =>
        let db2 := dbUpdateRow db1 mous_id (fun r =>
          { r with mous_directory := PyVal.pstr (to_platform_path tmpdir) })
        if o.sessionCreate.isEmpty then
          (Except.error PyErr.launchFailure,
           dbUpdateRow db2 mous_id (setDownloadStatus (str "error")))
        else
          (Except.ok (), db2)

/-- Environment outcomes for the split flow. -/
structure SplitOracle where
  mkdirOk : Bool
  jsonWriteOk : Bool
  sessionCreate : List Str

/-- The iteration `for calibrated_product in to_platform_path(...)` of the
split flow: a JSON-array cell yields its items, a raw string cell is
iterated character by character (the other `PyVal` constructors are never
produced by `to_platform_path_py`). -/
def splitFlowProducts (v : PyVal) : List Str :=
  match to_platform_path_py v with
  | PyVal.list xs => xs.map pyStr
  | PyVal.pstr s => s.map (fun c => [c])
  | _ => []

/-- `flows/mous_split.split_mous_flow`.  Note the region between the
`in_progress` write and the launch try-block: fetching products, building
the payload (which raises on an empty spw mapping or a malformed remap)
and writing the JSON file are *not* wrapped by the `except` that writes
`'error'`. -/
def split_mous_flow (o : SplitOracle) (db : DB)
    (mous_id db_path download_dir : Str) : Except PyErr Unit × DB :=
  match validate_mous_preselfcal_split_status db mous_id with
  | Except.error e => (Except.error e, db)
  | Except.ok _ =>
    let db1 := dbUpdateRow db mous_id (setSplitStatus (str "in_progress"))
    match get_pipeline_state_record_column_value db1 mous_id
        (str "calibrated_products") with
    | Except.error e => (Except.error e, db1)
    | Except.ok calibrated_products =>
      if ¬ pyTruthy calibrated_products then
        (Except.error (PyErr.noCalibratedProducts mous_id),
         dbUpdateRow db1 mous_id (setSplitStatus (str "error")))
      else
        match to_dir_mous_id mous_id with
        | Except.error _ => (Except.error (PyErr.invalidIdFormat mous_id), db1)
        | Except.ok dirName =>
          let vm_mous_dir := pathJoin download_dir dirName
          let vm_splits_dir := pathJoin vm_mous_dir (str "splits")
          if ¬ o.mkdirOk then (Except.error PyErr.envFailure, db1)
          else
            match build_split_job_payload db1 mous_id (to_platform_path db_path)
                (splitFlowProducts calibrated_products)
                (to_platform_path vm_mous_dir)
                (to_platform_path vm_splits_dir) with
            | Except.error e => (Except.error e, db1)
            | Except.ok (_payload, outputvis_path_list) =>
              if ¬ o.jsonWriteOk then (Except.error PyErr.envFailure, db1)
              else
                let db2 := dbUpdateRow db1 mous_id (fun r =>
                  { r with split_products_path := PyVal.pstr (jsonDump
                      (PyVal.list (outputvis_path_list.map PyVal.pstr))) })
                if o.sessionCreate.isEmpty then
                  (Except.error PyErr.launchFailure,
                   dbUpdateRow db2 mous_id (setSplitStatus (str "error")))
                else
                  (Except.ok (), db2)

/-- Environment outcomes for the listobs flow. -/
structure ListobsOracle where
  jsonWriteOk : Bool
  sessionCreate : List Str

/-- The comprehension `[to_platform_path(p) for p in xs]` of the listobs
flow; a non-iterable cell raises `TypeError`. -/
def listobsFlowProducts (v : PyVal) : Except PyErr (List Str) :=
  match v with
  | PyVal.list xs => Except.ok (xs.map (fun x => to_platform_path (pyStr x)))
  | PyVal.pstr s => Except.ok (s.map (fun c => to_platform_path [c]))
  | PyVal.dict kvs => Except.ok (kvs.map (fun kv => to_platform_path kv.1))
  | _ => Except.error PyErr.typeError

/-- `flows/mous_post_split_listobs.post_split_listobs_flow`.  As in the
split flow, the `to_dir_mous_id` call and the JSON write sit between the
`in_progress` write and the launch try-block. -/
def post_split_listobs_flow (o : ListobsOracle) (db : DB)
    (mous_id db_path datasets_dir : Str) : Except PyErr Unit × DB :=
  match validate_mous_split_status db mous_id with
  | Except.error e => (Except.error e, db)
  | Except.ok _ =>
    let db1 := dbUpdateRow db mous_id (setListobsStatus (str "in_progress"))
    match get_pipeline_state_record_column_value db1 mous_id
        (str "calibrated_products") with
    | Except.error e => (Except.error e, db1)
    | Except.ok calibrated_products_path =>
      match get_pipeline_state_record_column_value db1 mous_id
          (str "split_products_path") with
      | Except.error e => (Except.error e, db1)
      | Except.ok split_products_path =>
        if ¬ pyTruthy calibrated_products_path then
          (Except.error (PyErr.noCalibratedProducts mous_id),
           dbUpdateRow db1 mous_id (setListobsStatus (str "error")))
        else if ¬ pyTruthy split_products_path then
          (Except.error (PyErr.noSplitProducts mous_id),
           dbUpdateRow db1 mous_id (setListobsStatus (str "error")))
        else
          match listobsFlowProducts calibrated_products_path with
          | Except.error e => (Except.error e, db1)
          | Except.ok cal_list =>
            match listobsFlowProducts split_products_path with
            | Except.error e => (Except.error e, db1)
            | Except.ok split_list =>
              let _payload := build_listobs_job_payload mous_id
                (to_platform_path db_path) (to_platform_path datasets_dir)
                cal_list split_list
              match to_dir_mous_id mous_id with
              | Except.error _ =>
                (Except.error (PyErr.invalidIdFormat mous_id), db1)
              | Except.ok _dirName =>
                if ¬ o.jsonWriteOk then (Except.error PyErr.envFailure, db1)
                else if o.sessionCreate.isEmpty then
                  (Except.error PyErr.launchFailure,
                   dbUpdateRow db1 mous_id (setListobsStatus (str "error")))
                else
                  (Except.ok (), db1)

-- =====================================================================
-- Helper lemmas: lookups through row updates, validator shapes
-- =====================================================================

def downloadStatusOf (db : DB) (mous_id : Str) : Option PyVal :=
  (get_pipeline_state_record db mous_id).map (fun r => r.download_status)

def splitStatusOf (db : DB) (mous_id : Str) : Option PyVal :=
  (get_pipeline_state_record db mous_id).map (fun r => r.pre_selfcal_split_status)

def listobsStatusOf (db : DB) (mous_id : Str) : Option PyVal :=
  (get_pipeline_state_record db mous_id).map
    (fun r => r.pre_selfcal_listobs_status)

theorem find_dbUpdateRow (db : DB) (mous_id : Str) (f : PipelineRow → PipelineRow)
    (hf : ∀ r, (f r).mous_id = r.mous_id) :
    get_pipeline_state_record (dbUpdateRow db mous_id f) mous_id
      = (get_pipeline_state_record db mous_id).map f := by
  unfold get_pipeline_state_record dbUpdateRow
  induction db.pipeline_state with
  | nil => rfl
  | cons r rest ih =>
    simp only [List.map_cons, List.find?_cons]
    by_cases hr : (r.mous_id == mous_id) = true
    · rw [if_pos hr]
      have : ((f r).mous_id == mous_id) = true := by rw [hf r]; exact hr
      simp [this, hr]
    · rw [if_neg hr]
      have hr' : (r.mous_id == mous_id) = false := by
        cases h : (r.mous_id == mous_id) with
        | true => exact absurd h hr
        | false => rfl
      simp only [hr', cond_false]
      exact ih

theorem PyVal.eqStr_iff (v : PyVal) (t : Str) :
    v.eqStr t = true ↔ v = PyVal.pstr t := by
  cases v <;> simp [PyVal.eqStr]

/-- Shape of a successful download validation. -/
theorem validate_download_ok_iff (db : DB) (mous_id : Str) (s u : PyVal) :
    validate_mous_download_status db mous_id = Except.ok (s, u)
      ↔ ∃ row, get_pipeline_state_record db mous_id = some row
          ∧ row.download_status = PyVal.pstr (str "pending")
          ∧ pyTruthy row.download_url = true
          ∧ s = row.download_status ∧ u = row.download_url := by
  unfold validate_mous_download_status
  cases hfind : get_pipeline_state_record db mous_id with
  | none => simp
  | some row =>
    dsimp only
    by_cases h1 : row.download_status.eqStr (str "pending") = true
    · by_cases h2 : pyTruthy row.download_url = true
      · rw [if_neg (by simp [h1]), if_neg (by simp [h2])]
        simp only [Except.ok.injEq, Prod.mk.injEq, Option.some.injEq]
        constructor
        · rintro ⟨rfl, rfl⟩
          exact ⟨row, rfl, (PyVal.eqStr_iff _ _).mp h1, h2, rfl, rfl⟩
        · rintro ⟨row', heq, _, _, rfl, rfl⟩
          cases heq
          exact ⟨rfl, rfl⟩
      · rw [if_neg (by simp [h1]), if_pos (by simp [h2])]
        constructor
        · intro h; cases h
        · rintro ⟨row', heq, _, hu, _, _⟩
          cases heq
          exact absurd hu h2
    · rw [if_pos (by simp [h1])]
      constructor
      · intro h; cases h
      · rintro ⟨row', heq, hs, _, _, _⟩
        cases heq
        exact absurd ((PyVal.eqStr_iff _ _).mpr hs) h1

/-- Shape of a successful split validation. -/
theorem validate_split_ok_iff (db : DB) (mous_id : Str) :
    validate_mous_preselfcal_split_status db mous_id = Except.ok ()
      ↔ ∃ row, get_pipeline_state_record db mous_id = some row
          ∧ row.pre_selfcal_split_status = PyVal.pstr (str "pending")
          ∧ row.download_status = PyVal.pstr (str "complete") := by
  unfold validate_mous_preselfcal_split_status
  cases hfind : get_pipeline_state_record db mous_id with
  | none => simp
  | some row =>
    dsimp only
    by_cases h1 : row.pre_selfcal_split_status.eqStr (str "pending") = true
    · by_cases h2 : row.download_status.eqStr (str "complete") = true
      · rw [if_neg (by simp [h1]), if_neg (by simp [h2])]
        simp only [true_iff]
        exact ⟨row, rfl, (PyVal.eqStr_iff _ _).mp h1, (PyVal.eqStr_iff _ _).mp h2⟩
      · rw [if_neg (by simp [h1]), if_pos (by simp [h2])]
        constructor
        · intro h; cases h
        · rintro ⟨row', heq, _, hd⟩
          cases heq
          exact absurd ((PyVal.eqStr_iff _ _).mpr hd) h2
    · rw [if_pos (by simp [h1])]
      constructor
      · intro h; cases h
      · rintro ⟨row', heq, hs, _⟩
        cases heq
        exact absurd ((PyVal.eqStr_iff _ _).mpr hs) h1

/-- Shape of a successful listobs validation. -/
theorem validate_listobs_ok_iff (db : DB) (mous_id : Str) :
    validate_mous_split_status db mous_id = Except.ok ()
      ↔ ∃ row, get_pipeline_state_record db mous_id = some row
          ∧ row.pre_selfcal_split_status = PyVal.pstr (str "complete")
          ∧ row.pre_selfcal_listobs_status = PyVal.pstr (str "pending") := by
  unfold validate_mous_split_status
  cases hfind : get_pipeline_state_record db mous_id with
  | none => simp
  | some row =>
    dsimp only
    by_cases h1 : row.pre_selfcal_split_status.eqStr (str "complete") = true
    · by_cases h2 : row.pre_selfcal_listobs_status.eqStr (str "pending") = true
      · rw [if_neg (by simp [h1]), if_neg (by simp [h2])]
        simp only [true_iff]
        exact ⟨row, rfl, (PyVal.eqStr_iff _ _).mp h1, (PyVal.eqStr_iff _ _).mp h2⟩
      · rw [if_neg (by simp [h1]), if_pos (by simp [h2])]
        constructor
        · intro h; cases h
        · rintro ⟨row', heq, _, hd⟩
          cases heq
          exact absurd ((PyVal.eqStr_iff _ _).mpr hd) h2
    · rw [if_pos (by simp [h1])]
      constructor
      · intro h; cases h
      · rintro ⟨row', heq, hs, _⟩
        cases heq
        exact absurd ((PyVal.eqStr_iff _ _).mpr hs) h1

theorem downloadStatusOf_set (X : DB) (mous_id : Str) (v : Str) :
    downloadStatusOf (dbUpdateRow X mous_id (setDownloadStatus v)) mous_id
      = (get_pipeline_state_record X mous_id).map (fun _ => PyVal.pstr v) := by
  unfold downloadStatusOf
  rw [find_dbUpdateRow X mous_id (setDownloadStatus v) (fun r => rfl)]
  cases get_pipeline_state_record X mous_id <;> simp [setDownloadStatus]

theorem splitStatusOf_set (X : DB) (mous_id : Str) (v : Str) :
    splitStatusOf (dbUpdateRow X mous_id (setSplitStatus v)) mous_id
      = (get_pipeline_state_record X mous_id).map (fun _ => PyVal.pstr v) := by
  unfold splitStatusOf
  rw [find_dbUpdateRow X mous_id (setSplitStatus v) (fun r => rfl)]
  cases get_pipeline_state_record X mous_id <;> simp [setSplitStatus]

theorem listobsStatusOf_set (X : DB) (mous_id : Str) (v : Str) :
    listobsStatusOf (dbUpdateRow X mous_id (setListobsStatus v)) mous_id
      = (get_pipeline_state_record X mous_id).map (fun _ => PyVal.pstr v) := by
  unfold listobsStatusOf
  rw [find_dbUpdateRow X mous_id (setListobsStatus v) (fun r => rfl)]
  cases get_pipeline_state_record X mous_id <;> simp [setListobsStatus]

theorem downloadStatusOf_preserve (X : DB) (mous_id : Str)
    (f : PipelineRow → PipelineRow) (hf1 : ∀ r, (f r).mous_id = r.mous_id)
    (hf2 : ∀ r, (f r).download_status = r.download_status) :
    downloadStatusOf (dbUpdateRow X mous_id f) mous_id
      = downloadStatusOf X mous_id := by
  unfold downloadStatusOf
  rw [find_dbUpdateRow _ _ _ hf1]
  cases get_pipeline_state_record X mous_id <;> simp [hf2]

theorem splitStatusOf_preserve (X : DB) (mous_id : Str)
    (f : PipelineRow → PipelineRow) (hf1 : ∀ r, (f r).mous_id = r.mous_id)
    (hf2 : ∀ r, (f r).pre_selfcal_split_status = r.pre_selfcal_split_status) :
    splitStatusOf (dbUpdateRow X mous_id f) mous_id
      = splitStatusOf X mous_id := by
  unfold splitStatusOf
  rw [find_dbUpdateRow _ _ _ hf1]
  cases get_pipeline_state_record X mous_id <;> simp [hf2]

theorem find_dbUpdateRow_isSome (X : DB) (mous_id : Str)
    (f : PipelineRow → PipelineRow) (hf : ∀ r, (f r).mous_id = r.mous_id) :
    (get_pipeline_state_record (dbUpdateRow X mous_id f) mous_id).isSome
      = (get_pipeline_state_record X mous_id).isSome := by
  rw [find_dbUpdateRow _ _ _ hf]
  cases get_pipeline_state_record X mous_id <;> simp

theorem download_flow_validate_err (od : DownloadOracle) (db : DB)
    (mous_id : Str) (e : PyErr)
    (he : validate_mous_download_status db mous_id = Except.error e) :
    download_mous_flow od db mous_id = (Except.error e, db) := by
  unfold download_mous_flow
  rw [he]

theorem download_flow_post_validate (od : DownloadOracle) (db : DB)
    (mous_id : Str) (s u : PyVal)
    (hv : validate_mous_download_status db mous_id = Except.ok (s, u)) :
    ((download_mous_flow od db mous_id).1 = Except.ok ()
      → downloadStatusOf (download_mous_flow od db mous_id).2 mous_id
          = some (PyVal.pstr (str "in_progress")))
  ∧ (∀ e, (download_mous_flow od db mous_id).1 = Except.error e
      → downloadStatusOf (download_mous_flow od db mous_id).2 mous_id
          = some (PyVal.pstr (str "error"))) := by
  obtain ⟨row, hrow, -, -, -, -⟩ := (validate_download_ok_iff db mous_id s u).mp hv
  have hsome1 : get_pipeline_state_record
      (dbUpdateRow db mous_id (setDownloadStatus (str "in_progress"))) mous_id
      = some (setDownloadStatus (str "in_progress") row) := by
    rw [find_dbUpdateRow db mous_id (setDownloadStatus (str "in_progress"))
      (fun r => rfl), hrow]
    rfl
  unfold download_mous_flow
  rw [hv]
  cases hdir : to_dir_mous_id mous_id with
  | error msg =>
    dsimp only
    refine ⟨(fun h => by cases h), (fun e _ => ?_)⟩
    rw [downloadStatusOf_set, hsome1]
    rfl
  | ok dn =>
    cases hmk : od.mkdtemp with
    | none =>
      dsimp only
      refine ⟨(fun h => by cases h), (fun e _ => ?_)⟩
      rw [downloadStatusOf_set, hsome1]
      rfl
    | some tmp =>
      dsimp only
      have hsome2 : get_pipeline_state_record
          (dbUpdateRow
            (dbUpdateRow db mous_id (setDownloadStatus (str "in_progress")))
            mous_id (fun r =>
              { r with mous_directory := PyVal.pstr (to_platform_path tmp) }))
          mous_id
          = some { setDownloadStatus (str "in_progress") row with
              mous_directory := PyVal.pstr (to_platform_path tmp) } := by
        rw [find_dbUpdateRow _ mous_id (fun r =>
          { r with mous_directory := PyVal.pstr (to_platform_path tmp) })
          (fun r => rfl), hsome1]
        rfl
      by_cases hse : od.sessionCreate.isEmpty = true
      · rw [if_pos hse]
        refine ⟨(fun h => by cases h), (fun e _ => ?_)⟩
        rw [downloadStatusOf_set, hsome2]
        rfl
      · rw [if_neg hse]
        refine ⟨(fun _ => ?_), (fun e he => by cases he)⟩
        unfold downloadStatusOf
        rw [hsome2]
        rfl

theorem split_flow_validate_err (os : SplitOracle) (db : DB)
    (mous_id db_path download_dir : Str) (e : PyErr)
    (he : validate_mous_preselfcal_split_status db mous_id = Except.error e) :
    split_mous_flow os db mous_id db_path download_dir = (Except.error e, db) := by
  unfold split_mous_flow
  rw [he]

theorem split_flow_post_validate (os : SplitOracle) (db : DB)
    (mous_id db_path download_dir : Str)
    (hv : validate_mous_preselfcal_split_status db mous_id = Except.ok ()) :
    ((split_mous_flow os db mous_id db_path download_dir).1 = Except.ok ()
      → splitStatusOf (split_mous_flow os db mous_id db_path download_dir).2
          mous_id = some (PyVal.pstr (str "in_progress")))
  ∧ (∀ e, (split_mous_flow os db mous_id db_path download_dir).1
        = Except.error e
      → splitStatusOf (split_mous_flow os db mous_id db_path download_dir).2
          mous_id = some (PyVal.pstr (str "in_progress"))
        ∨ splitStatusOf (split_mous_flow os db mous_id db_path download_dir).2
            mous_id = some (PyVal.pstr (str "error")))
  ∧ ((split_mous_flow os db mous_id db_path download_dir).1 = Except.ok ()
      → (split_mous_flow { os with sessionCreate := [] } db mous_id db_path
            download_dir).1 = Except.error PyErr.launchFailure
        ∧ splitStatusOf (split_mous_flow { os with sessionCreate := [] } db
            mous_id db_path download_dir).2 mous_id
          = some (PyVal.pstr (str "error"))) := by
  obtain ⟨row, hrow, -, -⟩ := (validate_split_ok_iff db mous_id).mp hv
  have hsome1 : get_pipeline_state_record
      (dbUpdateRow db mous_id (setSplitStatus (str "in_progress"))) mous_id
      = some (setSplitStatus (str "in_progress") row) := by
    rw [find_dbUpdateRow db mous_id (setSplitStatus (str "in_progress"))
      (fun r => rfl), hrow]
    rfl
  have hst1 : splitStatusOf
      (dbUpdateRow db mous_id (setSplitStatus (str "in_progress"))) mous_id
      = some (PyVal.pstr (str "in_progress")) := by
    rw [splitStatusOf_set, hrow]
    rfl
  have hstE1 : splitStatusOf
      (dbUpdateRow (dbUpdateRow db mous_id (setSplitStatus (str "in_progress")))
        mous_id (setSplitStatus (str "error"))) mous_id
      = some (PyVal.pstr (str "error")) := by
    rw [splitStatusOf_set, hsome1]
    rfl
  unfold split_mous_flow
  rw [hv]
  dsimp only
  cases hcol : get_pipeline_state_record_column_value
      (dbUpdateRow db mous_id (setSplitStatus (str "in_progress"))) mous_id
      (str "calibrated_products") with
  | error e' =>
    exact ⟨(fun h => by cases h), (fun e he => Or.inl hst1), (fun h => by cases h)⟩
  | ok calibrated_products =>
    dsimp only
    by_cases htr : pyTruthy calibrated_products = true
    · rw [if_neg (by simp [htr])]
      cases hdir : to_dir_mous_id mous_id with
      | error msg =>
        exact ⟨(fun h => by cases h), (fun e he => Or.inl hst1),
          (fun h => by cases h)⟩
      | ok dirName =>
        dsimp only
        by_cases hmk : os.mkdirOk = true
        · rw [if_neg (by simp [hmk])]
          cases hpay : build_split_job_payload
              (dbUpdateRow db mous_id (setSplitStatus (str "in_progress")))
              mous_id (to_platform_path db_path)
              (splitFlowProducts calibrated_products)
              (to_platform_path (pathJoin download_dir dirName))
              (to_platform_path (pathJoin (pathJoin download_dir dirName)
                (str "splits"))) with
          | error e' =>
            exact ⟨(fun h => by cases h), (fun e he => Or.inl hst1),
              (fun h => by cases h)⟩
          | ok pr =>
            dsimp only
            by_cases hjw : os.jsonWriteOk = true
            · rw [if_neg (by simp [hjw])]
              have hsome2 : get_pipeline_state_record
                  (dbUpdateRow
                    (dbUpdateRow db mous_id (setSplitStatus (str "in_progress")))
                    mous_id (fun r =>
                      { r with split_products_path := PyVal.pstr (jsonDump
                          (PyVal.list (pr.2.map PyVal.pstr))) })) mous_id
                  = some { setSplitStatus (str "in_progress") row with
                      split_products_path := PyVal.pstr (jsonDump
                        (PyVal.list (pr.2.map PyVal.pstr))) } := by
                rw [find_dbUpdateRow _ mous_id (fun r =>
                  { r with split_products_path := PyVal.pstr (jsonDump
                      (PyVal.list (pr.2.map PyVal.pstr))) }) (fun r => rfl),
                  hsome1]
                rfl
              have hst2 : splitStatusOf
                  (dbUpdateRow
                    (dbUpdateRow db mous_id (setSplitStatus (str "in_progress")))
                    mous_id (fun r =>
                      { r with split_products_path := PyVal.pstr (jsonDump
                          (PyVal.list (pr.2.map PyVal.pstr))) })) mous_id
                  = some (PyVal.pstr (str "in_progress")) := by
                unfold splitStatusOf
                rw [hsome2]
                rfl
              have hstE2 : splitStatusOf
                  (dbUpdateRow (dbUpdateRow
                    (dbUpdateRow db mous_id (setSplitStatus (str "in_progress")))
                    mous_id (fun r =>
                      { r with split_products_path := PyVal.pstr (jsonDump
                          (PyVal.list (pr.2.map PyVal.pstr))) })) mous_id
                    (setSplitStatus (str "error"))) mous_id
                  = some (PyVal.pstr (str "error")) := by
                rw [splitStatusOf_set, hsome2]
                rfl
              by_cases hse : os.sessionCreate.isEmpty = true
              · rw [if_pos hse]
                exact ⟨(fun h => by cases h), (fun e he => Or.inr hstE2),
                  (fun h => by cases h)⟩
              · rw [if_neg hse]
                refine ⟨(fun _ => hst2), (fun e he => by cases he), (fun _ => ?_)⟩
                rw [if_neg (by simp [htr]), if_neg (by simp [hmk]),
                  if_neg (by simp [hjw]), if_pos (by simp)]
                exact ⟨rfl, hstE2⟩
            · rw [if_pos (by simpa using hjw)]
              exact ⟨(fun h => by cases h), (fun e he => Or.inl hst1),
                (fun h => by cases h)⟩
        · rw [if_pos (by simpa using hmk)]
          exact ⟨(fun h => by cases h), (fun e he => Or.inl hst1),
            (fun h => by cases h)⟩
    · rw [if_pos (by simpa using htr)]
      exact ⟨(fun h => by cases h), (fun e he => Or.inr hstE1),
        (fun h => by cases h)⟩

theorem listobs_flow_validate_err (ol : ListobsOracle) (db : DB)
    (mous_id db_path datasets_dir : Str) (e : PyErr)
    (he : validate_mous_split_status db mous_id = Except.error e) :
    post_split_listobs_flow ol db mous_id db_path datasets_dir
      = (Except.error e, db) := by
  unfold post_split_listobs_flow
  rw [he]

theorem listobs_flow_post_validate (ol : ListobsOracle) (db : DB)
    (mous_id db_path datasets_dir : Str)
    (hv : validate_mous_split_status db mous_id = Except.ok ()) :
    ((post_split_listobs_flow ol db mous_id db_path datasets_dir).1
        = Except.ok ()
      → listobsStatusOf
          (post_split_listobs_flow ol db mous_id db_path datasets_dir).2
          mous_id = some (PyVal.pstr (str "in_progress")))
  ∧ (∀ e, (post_split_listobs_flow ol db mous_id db_path datasets_dir).1
        = Except.error e
      → listobsStatusOf
          (post_split_listobs_flow ol db mous_id db_path datasets_dir).2
          mous_id = some (PyVal.pstr (str "in_progress"))
        ∨ listobsStatusOf
            (post_split_listobs_flow ol db mous_id db_path datasets_dir).2
            mous_id = some (PyVal.pstr (str "error")))
  ∧ ((post_split_listobs_flow ol db mous_id db_path datasets_dir).1
        = Except.ok ()
      → (post_split_listobs_flow { ol with sessionCreate := [] } db mous_id
            db_path datasets_dir).1 = Except.error PyErr.launchFailure
        ∧ listobsStatusOf
            (post_split_listobs_flow { ol with sessionCreate := [] } db mous_id
              db_path datasets_dir).2 mous_id
          = some (PyVal.pstr (str "error"))) := by
  obtain ⟨row, hrow, -, -⟩ := (validate_listobs_ok_iff db mous_id).mp hv
  have hsome1 : get_pipeline_state_record
      (dbUpdateRow db mous_id (setListobsStatus (str "in_progress"))) mous_id
      = some (setListobsStatus (str "in_progress") row) := by
    rw [find_dbUpdateRow db mous_id (setListobsStatus (str "in_progress"))
      (fun r => rfl), hrow]
    rfl
  have hst1 : listobsStatusOf
      (dbUpdateRow db mous_id (setListobsStatus (str "in_progress"))) mous_id
      = some (PyVal.pstr (str "in_progress")) := by
    rw [listobsStatusOf_set, hrow]
    rfl
  have hstE1 : listobsStatusOf
      (dbUpdateRow (dbUpdateRow db mous_id (setListobsStatus (str "in_progress")))
        mous_id (setListobsStatus (str "error"))) mous_id
      = some (PyVal.pstr (str "error")) := by
    rw [listobsStatusOf_set, hsome1]
    rfl
  unfold post_split_listobs_flow
  rw [hv]
  dsimp only
  cases hcol1 : get_pipeline_state_record_column_value
      (dbUpdateRow db mous_id (setListobsStatus (str "in_progress"))) mous_id
      (str "calibrated_products") with
  | error e' =>
    exact ⟨(fun h => by cases h), (fun e he => Or.inl hst1), (fun h => by cases h)⟩
  | ok calibrated_products_path =>
    dsimp only
    cases hcol2 : get_pipeline_state_record_column_value
        (dbUpdateRow db mous_id (setListobsStatus (str "in_progress"))) mous_id
        (str "split_products_path") with
    | error e' =>
      exact ⟨(fun h => by cases h), (fun e he => Or.inl hst1),
        (fun h => by cases h)⟩
    | ok split_products_path =>
      dsimp only
      by_cases htr1 : pyTruthy calibrated_products_path = true
      · by_cases htr2 : pyTruthy split_products_path = true
        · rw [if_neg (by simp [htr1]), if_neg (by simp [htr2])]
          cases hpl1 : listobsFlowProducts calibrated_products_path with
          | error e' =>
            exact ⟨(fun h => by cases h), (fun e he => Or.inl hst1),
              (fun h => by cases h)⟩
          | ok cal_list =>
            dsimp only
            cases hpl2 : listobsFlowProducts split_products_path with
            | error e' =>
              exact ⟨(fun h => by cases h), (fun e he => Or.inl hst1),
                (fun h => by cases h)⟩
            | ok split_list =>
              dsimp only
              cases hdir : to_dir_mous_id mous_id with
              | error msg =>
                exact ⟨(fun h => by cases h), (fun e he => Or.inl hst1),
                  (fun h => by cases h)⟩
              | ok dirName =>
                dsimp only
                by_cases hjw : ol.jsonWriteOk = true
                · rw [if_neg (by simp [hjw])]
                  by_cases hse : ol.sessionCreate.isEmpty = true
                  · rw [if_pos hse]
                    exact ⟨(fun h => by cases h), (fun e he => Or.inr hstE1),
                      (fun h => by cases h)⟩
                  · rw [if_neg hse]
                    refine ⟨(fun _ => hst1), (fun e he => by cases he),
                      (fun _ => ?_)⟩
                    rw [if_neg (by simp [htr1]), if_neg (by simp [htr2]),
                      if_neg (by simp [hjw]), if_pos (by simp)]
                    exact ⟨rfl, hstE1⟩
                · rw [if_pos (by simpa using hjw)]
                  exact ⟨(fun h => by cases h), (fun e he => Or.inl hst1),
                    (fun h => by cases h)⟩
        · rw [if_neg (by simp [htr1]), if_pos (by simpa using htr2)]
          exact ⟨(fun h => by cases h), (fun e he => Or.inr hstE1),
            (fun h => by cases h)⟩
      · rw [if_pos (by simpa using htr1)]
        exact ⟨(fun h => by cases h), (fun e he => Or.inr hstE1),
          (fun h => by cases h)⟩

/-- **C6**: the job-status monitor tolerates at most 3 consecutive empty
responses (two are tolerated, the third raises the fatal lost-job error);
a terminal `Succeeded` returns success; `Failed`/`Terminated` raise an
error carrying the terminal status string; any other non-empty status
resets the budget and polls again.  `pre` is any already-consumed response
prefix that leaves the loop polling with counter `c`. -/
theorem monitor_budget_and_terminal (job_id : Str)
    (pre rs : List PollResponse) (c : ℕ)
    (h : monitor_download_headless_session job_id pre
      = MonitorOutcome.polling c) :
    (c = 0 → monitor_download_headless_session job_id
        (pre ++ PollResponse.empty :: PollResponse.empty
          :: PollResponse.empty :: rs)
        = MonitorOutcome.failure (PyErr.jobLost job_id))
  ∧ (c = 0 → monitor_download_headless_session job_id
        (pre ++ [PollResponse.empty, PollResponse.empty])
        = MonitorOutcome.polling 2)
  ∧ (monitor_download_headless_session job_id
        (pre ++ PollResponse.status (str "Succeeded") :: rs)
        = MonitorOutcome.success)
  ∧ (monitor_download_headless_session job_id
        (pre ++ PollResponse.status (str "Failed") :: rs)
        = MonitorOutcome.failure (PyErr.jobFailed (str "Failed")))
  ∧ (monitor_download_headless_session job_id
        (pre ++ PollResponse.status (str "Terminated") :: rs)
        = MonitorOutcome.failure (PyErr.jobFailed (str "Terminated")))
  ∧ (∀ s, s ≠ str "Succeeded" → s ≠ str "Failed" → s ≠ str "Terminated" →
      monitor_download_headless_session job_id
          (pre ++ [PollResponse.status s])
        = MonitorOutcome.polling 0) := by
  unfold monitor_download_headless_session at h ⊢
  refine ⟨?_, ?_, ?_, ?_, ?_, ?_⟩
  · intro hc
    subst hc
    rw [monitorLoop_append h]
    rfl
  · intro hc
    subst hc
    rw [monitorLoop_append h]
    rfl
  · rw [monitorLoop_append h]
    simp [monitorLoop]
  · rw [monitorLoop_append h]
    simp only [monitorLoop, beq_iff_eq]
    rw [if_neg (by decide), if_pos (by decide)]
  · rw [monitorLoop_append h]
    simp only [monitorLoop, beq_iff_eq]
    rw [if_neg (by decide), if_pos (by decide)]
  · intro s h1 h2 h3
    rw [monitorLoop_append h]
    simp only [monitorLoop, beq_iff_eq, if_neg h1]
    rw [if_neg (by simp [h2, h3])]

/-- Witness for C6 at a concrete polling history. -/
theorem monitor_budget_and_terminal_witness :
    monitor_download_headless_session (str "j1")
        [PollResponse.status (str "Running")] = MonitorOutcome.polling 0
  ∧ monitor_download_headless_session (str "j1")
      ([PollResponse.status (str "Running")] ++ PollResponse.empty
        :: PollResponse.empty :: PollResponse.empty :: [])
      = MonitorOutcome.failure (PyErr.jobLost (str "j1"))
  ∧ monitor_download_headless_session (str "j1")
      ([PollResponse.status (str "Running")]
        ++ [PollResponse.empty, PollResponse.empty])
      = MonitorOutcome.polling 2
  ∧ monitor_download_headless_session (str "j1")
      ([PollResponse.status (str "Running")]
        ++ PollResponse.status (str "Succeeded") :: [])
      = MonitorOutcome.success
  ∧ monitor_download_headless_session (str "j1")
      ([PollResponse.status (str "Running")]
        ++ PollResponse.status (str "Failed") :: [])
      = MonitorOutcome.failure (PyErr.jobFailed (str "Failed"))
  ∧ monitor_download_headless_session (str "j1")
      ([PollResponse.status (str "Running")]
        ++ PollResponse.status (str "Terminated") :: [])
      = MonitorOutcome.failure (PyErr.jobFailed (str "Terminated"))
  ∧ monitor_download_headless_session (str "j1")
      ([PollResponse.status (str "Running")]
        ++ [PollResponse.status (str "Queued")])
      = MonitorOutcome.polling 0 := by
  have h : monitor_download_headless_session (str "j1")
      [PollResponse.status (str "Running")] = MonitorOutcome.polling 0 := by
    rfl
  have main := monitor_budget_and_terminal (str "j1")
    [PollResponse.status (str "Running")] [] 0 h
  exact ⟨h, main.1 rfl, main.2.1 rfl, main.2.2.1, main.2.2.2.1,
    main.2.2.2.2.1, main.2.2.2.2.2 (str "Queued") (by decide) (by decide)
      (by decide)⟩

/-- **C7**: the download validator returns the URL exactly when the unit's
row exists with `download_status == 'pending'` and a truthy
`download_url`; otherwise it raises the error naming the unmet condition
(missing row, non-pending status carrying the offending value, or missing
URL).  The validator is a pure read — it performs no store write. -/
theorem validate_download_spec (db : DB) (mous_id : Str) :
    (∀ s u, validate_mous_download_status db mous_id = Except.ok (s, u)
      ↔ ∃ row, get_pipeline_state_record db mous_id = some row
          ∧ row.download_status = PyVal.pstr (str "pending")
          ∧ pyTruthy row.download_url = true
          ∧ s = row.download_status ∧ u = row.download_url)
  ∧ (get_pipeline_state_record db mous_id = Option.none
      → validate_mous_download_status db mous_id
          = Except.error (PyErr.notFound mous_id))
  ∧ (∀ row, get_pipeline_state_record db mous_id = some row
      → row.download_status ≠ PyVal.pstr (str "pending")
      → validate_mous_download_status db mous_id
          = Except.error (PyErr.badStatus (str "download_status") mous_id
              row.download_status [str "pending"]))
  ∧ (∀ row, get_pipeline_state_record db mous_id = some row
      → row.download_status = PyVal.pstr (str "pending")
      → pyTruthy row.download_url = false
      → validate_mous_download_status db mous_id
          = Except.error (PyErr.missingUrl mous_id)) := by
  refine ⟨validate_download_ok_iff db mous_id, ?_, ?_, ?_⟩
  · intro hnone
    unfold validate_mous_download_status
    rw [hnone]
  · intro row hrow hne
    unfold validate_mous_download_status
    rw [hrow]
    dsimp only
    rw [if_pos (by
      intro hcon
      exact hne ((PyVal.eqStr_iff _ _).mp hcon))]
  · intro row hrow hs hurl
    unfold validate_mous_download_status
    rw [hrow]
    dsimp only
    rw [if_neg (by simp [(PyVal.eqStr_iff _ _).mpr hs]),
      if_pos (by simp [hurl])]

/-- Witness for C7: Scenario A (a pending row with a URL validates,
returning the URL) and Scenario B (an `in_progress` row is rejected with
the error naming `download_status`). -/
theorem validate_download_spec_witness :
    validate_mous_download_status
        ⟨[⟨str "U1", PyVal.pstr (str "pending"), PyVal.pstr (str "http://x"),
           PyVal.none, PyVal.none, PyVal.pstr (str "pending"), PyVal.none,
           PyVal.pstr (str "pending"), PyVal.none, PyVal.none⟩], []⟩
        (str "U1")
      = Except.ok (PyVal.pstr (str "pending"), PyVal.pstr (str "http://x"))
  ∧ validate_mous_download_status
        ⟨[⟨str "U2", PyVal.pstr (str "in_progress"), PyVal.pstr (str "http://x"),
           PyVal.none, PyVal.none, PyVal.pstr (str "pending"), PyVal.none,
           PyVal.pstr (str "pending"), PyVal.none, PyVal.none⟩], []⟩
        (str "U2")
      = Except.error (PyErr.badStatus (str "download_status") (str "U2")
          (PyVal.pstr (str "in_progress")) [str "pending"]) := by
  constructor
  · exact ((validate_download_spec _ (str "U1")).1 _ _).mpr
      ⟨⟨str "U1", PyVal.pstr (str "pending"), PyVal.pstr (str "http://x"),
        PyVal.none, PyVal.none, PyVal.pstr (str "pending"), PyVal.none,
        PyVal.pstr (str "pending"), PyVal.none, PyVal.none⟩,
       rfl, rfl, rfl, rfl, rfl⟩
  · exact (validate_download_spec _ (str "U2")).2.2.1
      ⟨str "U2", PyVal.pstr (str "in_progress"), PyVal.pstr (str "http://x"),
       PyVal.none, PyVal.none, PyVal.pstr (str "pending"), PyVal.none,
       PyVal.pstr (str "pending"), PyVal.none, PyVal.none⟩ rfl
      (by
        intro h
        exact absurd (PyVal.pstr.inj h) (by decide))

/-- Counterexample for C3: a row with `pre_selfcal_split_status = 'split'`
and `pre_selfcal_listobs_status = 'pending'` is *rejected* by the listobs
validator, contradicting the claimed `∈ {complete, split}` eligibility. -/
theorem listobs_validator_counterexample :
    validate_mous_split_status
        ⟨[⟨str "U3", PyVal.none, PyVal.none, PyVal.none, PyVal.none,
           PyVal.pstr (str "split"), PyVal.none, PyVal.pstr (str "pending"),
           PyVal.none, PyVal.none⟩], []⟩ (str "U3")
      = Except.error (PyErr.badStatus (str "pre_selfcal_split_status")
          (str "U3") (PyVal.pstr (str "split")) [str "complete"]) := rfl

/-- **C3 (amended)**: the listobs validator declares a unit eligible
exactly when `pre_selfcal_split_status == 'complete'` (only) and
`pre_selfcal_listobs_status == 'pending'`; a row whose split status is
`'split'` is rejected with the error naming that field; and the monitor's
listobs trigger uses the same complete-and-pending condition. -/
theorem listobs_validator_amended (db : DB) (mous_id : Str) :
    (validate_mous_split_status db mous_id = Except.ok ()
      ↔ ∃ row, get_pipeline_state_record db mous_id = some row
          ∧ row.pre_selfcal_split_status = PyVal.pstr (str "complete")
          ∧ row.pre_selfcal_listobs_status = PyVal.pstr (str "pending"))
  ∧ (mous_id ∈ monitorListobsTriggers db
      ↔ ∃ row, row ∈ db.pipeline_state ∧ row.mous_id = mous_id
          ∧ row.pre_selfcal_split_status = PyVal.pstr (str "complete")
          ∧ row.pre_selfcal_listobs_status = PyVal.pstr (str "pending"))
  ∧ (∀ row, get_pipeline_state_record db mous_id = some row
      → row.pre_selfcal_split_status = PyVal.pstr (str "split")
      → validate_mous_split_status db mous_id
          = Except.error (PyErr.badStatus (str "pre_selfcal_split_status")
              mous_id (PyVal.pstr (str "split")) [str "complete"])) := by
  refine ⟨validate_listobs_ok_iff db mous_id, ?_, ?_⟩
  · unfold monitorListobsTriggers
    simp only [List.mem_map, List.mem_filter, Bool.and_eq_true,
      PyVal.eqStr_iff]
    constructor
    · rintro ⟨row, ⟨hmem, hs, hl⟩, rfl⟩
      exact ⟨row, hmem, rfl, hs, hl⟩
    · rintro ⟨row, hmem, rfl, hs, hl⟩
      exact ⟨row, ⟨hmem, hs, hl⟩, rfl⟩
  · intro row hrow hs
    unfold validate_mous_split_status
    rw [hrow]
    dsimp only
    rw [if_pos (by
      intro hcon
      rw [hs] at hcon
      exact absurd (PyVal.pstr.inj ((PyVal.eqStr_iff _ _).mp hcon))
        (by decide)), hs]

/-- Witness for C3 (amended): a `complete`/`pending` row is eligible; a
`split` row is rejected. -/
theorem listobs_validator_amended_witness :
    validate_mous_split_status
        ⟨[⟨str "U4", PyVal.none, PyVal.none, PyVal.none, PyVal.none,
           PyVal.pstr (str "complete"), PyVal.none, PyVal.pstr (str "pending"),
           PyVal.none, PyVal.none⟩], []⟩ (str "U4")
      = Except.ok ()
  ∧ validate_mous_split_status
        ⟨[⟨str "U5", PyVal.none, PyVal.none, PyVal.none, PyVal.none,
           PyVal.pstr (str "split"), PyVal.none, PyVal.pstr (str "pending"),
           PyVal.none, PyVal.none⟩], []⟩ (str "U5")
      = Except.error (PyErr.badStatus (str "pre_selfcal_split_status")
          (str "U5") (PyVal.pstr (str "split")) [str "complete"]) := by
  constructor
  · exact (listobs_validator_amended _ (str "U4")).1.mpr
      ⟨⟨str "U4", PyVal.none, PyVal.none, PyVal.none, PyVal.none,
        PyVal.pstr (str "complete"), PyVal.none, PyVal.pstr (str "pending"),
        PyVal.none, PyVal.none⟩, rfl, rfl, rfl⟩
  · exact (listobs_validator_amended _ (str "U5")).2.2
      ⟨str "U5", PyVal.none, PyVal.none, PyVal.none, PyVal.none,
       PyVal.pstr (str "split"), PyVal.none, PyVal.pstr (str "pending"),
       PyVal.none, PyVal.none⟩ rfl rfl

/-- The key list of a manifest task entry. -/
def dictKeys : PyVal → List Str
  | PyVal.dict kvs => kvs.map (fun kv => kv.1)
  | _ => []

/-- The task entries of a manifest payload. -/
def payloadTasks (p : PyVal) : List PyVal :=
  match p with
  | PyVal.dict kvs =>
    match kvs.lookup (str "tasks") with
    | some (PyVal.list ts) => ts
    | _ => []
  | _ => []

/-- **C2**: on a concrete unit, the generated split manifest's task entries
carry the keys `task, vis, outputvis, intent, spw, datacolumn` — there is
no `field` key — while the manifest consumer `casa_driver.py` reads
`task["field"]` and therefore aborts with `KeyError('field')` on the
generator's own output; the listobs entries carry exactly
`task, vis, listfile` and are consumed successfully. -/
theorem split_manifest_field_key_bug :
    ((build_split_job_payload
        ⟨[⟨str "U1", PyVal.none, PyVal.none, PyVal.none, PyVal.none,
           PyVal.none, PyVal.none, PyVal.none, PyVal.none, PyVal.none⟩],
         [⟨str "U1", str "Src", some (str "x.spw.3")⟩]⟩
        (str "U1") (str "/db.sqlite") [str "/a/prod.ms"]
        (str "/m") (str "/m/splits")).map
      (fun pr => (payloadTasks pr.1).map dictKeys))
      = Except.ok [[str "task", str "vis", str "outputvis", str "intent",
          str "spw", str "datacolumn"]]
  ∧ (str "field") ∉ [str "task", str "vis", str "outputvis", str "intent",
      str "spw", str "datacolumn"]
  ∧ ((build_split_job_payload
        ⟨[⟨str "U1", PyVal.none, PyVal.none, PyVal.none, PyVal.none,
           PyVal.none, PyVal.none, PyVal.none, PyVal.none, PyVal.none⟩],
         [⟨str "U1", str "Src", some (str "x.spw.3")⟩]⟩
        (str "U1") (str "/db.sqlite") [str "/a/prod.ms"]
        (str "/m") (str "/m/splits")).bind
      (fun pr => casa_driver_main pr.1))
      = Except.error (PyErr.keyError (str "field"))
  ∧ ((payloadTasks (build_listobs_job_payload (str "U1") (str "/db.sqlite")
        (str "/data") [str "/a/prod.ms"]
        [str "/m/splits/prod_targets.ms"])).map dictKeys)
      = [[str "task", str "vis", str "listfile"],
         [str "task", str "vis", str "listfile"]]
  ∧ casa_driver_main (build_listobs_job_payload (str "U1") (str "/db.sqlite")
        (str "/data") [str "/a/prod.ms"] [str "/m/splits/prod_targets.ms"])
      = Except.ok
          [CasaCall.listobs (PyVal.pstr (str "/a/prod.ms"))
            (PyVal.pstr (str "/a/prod.ms.listobs.txt")) (PyVal.bool true),
           CasaCall.listobs (PyVal.pstr (str "/m/splits/prod_targets.ms"))
            (PyVal.pstr (str "/m/splits/prod_targets.ms.listobs.txt"))
            (PyVal.bool true)] := by
  refine ⟨rfl, by decide, rfl, rfl, rfl⟩

theorem serFields_lookup (fields : List (Str × PyVal)) (c : Str) :
    (fields.map (fun f => (f.1, serializeField f.2))).lookup c
      = (fields.lookup c).map serializeField := by
  induction fields with
  | nil => rfl
  | cons f rest ih =>
    simp only [List.map_cons, List.lookup]
    by_cases hc : (c == f.1) = true
    · simp [hc]
    · simp only [hc]
      exact ih

/-- **C9**: updating a pipeline-state (or mous) record with a non-empty
field set rewrites only the named columns of the rows whose `mous_id`
matches (serializing list/dict values), leaves every other column of those
rows and every other row untouched, and preserves the schema and row
count; with an empty field set no write happens at all; both update
functions behave identically. -/
theorem update_record_frame (tbl : GenTable) (mous_id : Str)
    (fields : List (Str × PyVal)) :
    (update_mous_record tbl mous_id fields
      = update_pipeline_state_record tbl mous_id fields)
  ∧ (fields = [] →
      update_pipeline_state_record tbl mous_id fields = Except.ok tbl)
  ∧ (∀ tbl', update_pipeline_state_record tbl mous_id fields = Except.ok tbl'
      → tbl'.schema = tbl.schema
        ∧ tbl'.rows.length = tbl.rows.length
        ∧ (∀ i r r', tbl.rows.get? i = some r → tbl'.rows.get? i = some r'
            → r'.mous_id = r.mous_id
              ∧ (r.mous_id ≠ mous_id → r' = r)
              ∧ (r.mous_id = mous_id →
                  (∀ c old, (c, old) ∈ r.cells → fields.lookup c = Option.none
                    → (c, old) ∈ r'.cells)
                  ∧ (∀ c old v, (c, old) ∈ r.cells → fields.lookup c = some v
                    → (c, serializeField v) ∈ r'.cells)))) := by
  refine ⟨rfl, ?_, ?_⟩
  · intro hf
    subst hf
    rfl
  · intro tbl' hok
    unfold update_pipeline_state_record at hok
    by_cases hemp : fields.isEmpty = true
    · rw [if_pos hemp] at hok
      cases hok
      have hfields : fields = [] := List.isEmpty_iff.mp hemp
      subst hfields
      refine ⟨rfl, rfl, ?_⟩
      intro i r r' h1 h2
      rw [h1] at h2
      cases h2
      refine ⟨rfl, fun _ => rfl, fun _ => ⟨fun c old hm _ => hm, ?_⟩⟩
      intro c old v _ hl
      simp [List.lookup] at hl
    · rw [if_neg hemp] at hok
      by_cases hsch : (fields.all (fun f => tbl.schema.contains f.1)) = true
      · rw [if_neg (not_not_intro hsch)] at hok
        cases hok
        refine ⟨rfl, by simp, ?_⟩
        intro i r r' h1 h2
        simp only [List.get?_map, h1, Option.map_some] at h2
        cases h2
        dsimp only
        by_cases hid : (r.mous_id == mous_id) = true
        · rw [if_pos hid]
          have hideq : r.mous_id = mous_id := by simpa using hid
          refine ⟨rfl, (fun hne => absurd hideq hne), fun _ => ⟨?_, ?_⟩⟩
          · intro c old hm hl
            have heq : (fun cell : Str × PyVal =>
                match (fields.map (fun f => (f.1, serializeField f.2))).lookup
                    cell.1 with
                | some v => (cell.1, v)
                | Option.none => cell) (c, old) = (c, old) := by
              simp only [serFields_lookup, hl]
              rfl
            have hmem := List.mem_map_of_mem (fun cell : Str × PyVal =>
                match (fields.map (fun f => (f.1, serializeField f.2))).lookup
                    cell.1 with
                | some v => (cell.1, v)
                | Option.none => cell) hm
            rw [heq] at hmem
            exact hmem
          · intro c old v hm hl
            have heq : (fun cell : Str × PyVal =>
                match (fields.map (fun f => (f.1, serializeField f.2))).lookup
                    cell.1 with
                | some v => (cell.1, v)
                | Option.none => cell) (c, old) = (c, serializeField v) := by
              simp only [serFields_lookup, hl]
              rfl
            have hmem := List.mem_map_of_mem (fun cell : Str × PyVal =>
                match (fields.map (fun f => (f.1, serializeField f.2))).lookup
                    cell.1 with
                | some v => (cell.1, v)
                | Option.none => cell) hm
            rw [heq] at hmem
            exact hmem
        · rw [if_neg hid]
          have hidne : r.mous_id ≠ mous_id := by simpa using hid
          exact ⟨rfl, (fun _ => rfl), (fun heq => absurd heq hidne)⟩
      · rw [if_pos hsch] at hok
        cases hok

def wSchema : List Str := [str "mous_id", str "download_status", str "download_url"]

def wRow1 : GenRow :=
  ⟨str "A", [(str "download_status", PyVal.pstr (str "pending")),
             (str "download_url", PyVal.pstr (str "http"))]⟩

def wRow2 : GenRow :=
  ⟨str "B", [(str "download_status", PyVal.pstr (str "pending"))]⟩

def wTbl : GenTable := ⟨wSchema, [wRow1, wRow2]⟩

def wFields : List (Str × PyVal) :=
  [(str "download_status", PyVal.pstr (str "complete"))]

def wTblOut : GenTable :=
  ⟨wSchema, [⟨str "A", [(str "download_status", PyVal.pstr (str "complete")),
                        (str "download_url", PyVal.pstr (str "http"))]⟩, wRow2]⟩

theorem update_record_frame_witness :
    update_mous_record wTbl (str "A") wFields
      = update_pipeline_state_record wTbl (str "A") wFields
  ∧ update_pipeline_state_record wTbl (str "A") [] = Except.ok wTbl
  ∧ update_pipeline_state_record wTbl (str "A") wFields = Except.ok wTblOut
  ∧ wTblOut.schema = wTbl.schema
  ∧ wTblOut.rows.length = wTbl.rows.length
  ∧ (str "download_url", PyVal.pstr (str "http")) ∈ (wTblOut.rows.getD 0 wRow2).cells
  ∧ (str "download_status", serializeField (PyVal.pstr (str "complete")))
      ∈ (wTblOut.rows.getD 0 wRow2).cells
  ∧ wTblOut.rows.getD 1 wRow1 = wRow2 := by
  obtain ⟨hA, _, h3⟩ := update_record_frame wTbl (str "A") wFields
  obtain ⟨_, hE, _⟩ := update_record_frame wTbl (str "A") []
  obtain ⟨hsch, hlen, hrows⟩ := h3 wTblOut rfl
  obtain ⟨_, _, hmatch⟩ := hrows 0 wRow1 (wTblOut.rows.getD 0 wRow2) rfl rfl
  obtain ⟨hpres, hupd⟩ := hmatch rfl
  obtain ⟨_, hne, _⟩ := hrows 1 wRow2 (wTblOut.rows.getD 1 wRow1) rfl rfl
  refine ⟨hA, hE rfl, rfl, hsch, hlen, ?_, ?_, ?_⟩
  · exact hpres (str "download_url") (PyVal.pstr (str "http"))
      (List.mem_cons_of_mem _ (List.mem_cons_self _ _)) rfl
  · exact hupd (str "download_status") (PyVal.pstr (str "pending"))
      (PyVal.pstr (str "complete")) (List.mem_cons_self _ _) rfl
  · exact hne (by decide)

/-- **C10**: the generic pipeline-state column getter never raises on
malformed content: for any known column it always succeeds — returning
`None` when the unit has no row or the stored value is NULL, the parsed
JSON value when the stored text is valid JSON, and the raw stored text
unchanged when it is not valid JSON; by contrast, the remap-specific
getter `get_spw_remap` raises on a stored remap string that is invalid
JSON. -/
theorem column_getter_total (db : DB) (mous_id column : Str) :
    (get_pipeline_state_record db mous_id = Option.none →
      get_pipeline_state_record_column_value db mous_id column
        = Except.ok PyVal.none)
  ∧ (∀ row raw, get_pipeline_state_record db mous_id = some row →
      row.col column = some raw →
        (∃ v, get_pipeline_state_record_column_value db mous_id column
          = Except.ok v)
      ∧ (raw = PyVal.none →
          get_pipeline_state_record_column_value db mous_id column
            = Except.ok PyVal.none)
      ∧ (∀ s v, raw = PyVal.pstr s → jsonLoads s = some v →
          get_pipeline_state_record_column_value db mous_id column
            = Except.ok v)
      ∧ (∀ s, raw = PyVal.pstr s → jsonLoads s = Option.none →
          get_pipeline_state_record_column_value db mous_id column
            = Except.ok (PyVal.pstr s)))
  ∧ (∀ row s, get_pipeline_state_record db mous_id = some row →
      row.raw_data_spectral_remap = PyVal.pstr s → jsonLoads s = Option.none →
        get_spw_remap db mous_id
          = Except.error PyErr.invalidRemapJson) := by
  refine ⟨?_, ?_, ?_⟩
  · intro hnone
    unfold get_pipeline_state_record_column_value
    rw [hnone]
  · intro row raw hrow hcol
    have hbase : get_pipeline_state_record_column_value db mous_id column
        = Except.ok (parse_json_safe raw) := by
      unfold get_pipeline_state_record_column_value
      rw [hrow]
      dsimp only
      rw [hcol]
    refine ⟨⟨parse_json_safe raw, hbase⟩, ?_, ?_, ?_⟩
    · intro hraw
      subst hraw
      exact hbase
    · intro s v hraw hjson
      subst hraw
      rw [hbase]
      unfold parse_json_safe
      dsimp only
      rw [hjson]
    · intro s hraw hjson
      subst hraw
      rw [hbase]
      unfold parse_json_safe
      dsimp only
      rw [hjson]
  · intro row s hrow hremap hjson
    unfold get_spw_remap
    rw [hrow]
    dsimp only
    rw [hremap]
    dsimp only
    rw [hjson]

def wRowC : PipelineRow :=
  ⟨str "U1", PyVal.pstr (str "complete"), PyVal.none,
   PyVal.pstr (str "uid_A001_X1"), PyVal.pstr (str "[1, 2]"),
   PyVal.pstr (str "pending"), PyVal.none, PyVal.pstr (str "pending"),
   PyVal.pstr (str "data"), PyVal.pstr (str "oops")⟩

def wDB : DB := ⟨[wRowC], []⟩

theorem column_getter_total_witness :
    get_pipeline_state_record_column_value wDB (str "U9")
      (str "calibrated_products") = Except.ok PyVal.none
  ∧ get_pipeline_state_record_column_value wDB (str "U1")
      (str "download_url") = Except.ok PyVal.none
  ∧ get_pipeline_state_record_column_value wDB (str "U1")
      (str "calibrated_products")
      = Except.ok (PyVal.list [PyVal.int 1, PyVal.int 2])
  ∧ get_pipeline_state_record_column_value wDB (str "U1")
      (str "raw_data_spectral_remap") = Except.ok (PyVal.pstr (str "oops"))
  ∧ get_spw_remap wDB (str "U1") = Except.error PyErr.invalidRemapJson := by
  refine ⟨?_, ?_, ?_, ?_, ?_⟩
  · exact (column_getter_total wDB (str "U9") (str "calibrated_products")).1 rfl
  · exact ((column_getter_total wDB (str "U1") (str "download_url")).2.1
      wRowC PyVal.none rfl rfl).2.1 rfl
  · exact ((column_getter_total wDB (str "U1") (str "calibrated_products")).2.1
      wRowC (PyVal.pstr (str "[1, 2]")) rfl rfl).2.2.1
      (str "[1, 2]") (PyVal.list [PyVal.int 1, PyVal.int 2]) rfl rfl
  · exact ((column_getter_total wDB (str "U1")
      (str "raw_data_spectral_remap")).2.1
      wRowC (PyVal.pstr (str "oops")) rfl rfl).2.2.2
      (str "oops") rfl rfl
  · exact (column_getter_total wDB (str "U1") (str "mous_id")).2.2
      wRowC (str "oops") rfl rfl rfl

theorem spwMapInsert_lookup_self (m : List (Str × List ℤ)) (src : Str)
    (n : ℤ) :
    (spwMapInsert m src n).lookup src
      = some (setAdd ((m.lookup src).getD []) n) := by
  induction m with
  | nil =>
    simp [spwMapInsert, List.lookup, setAdd]
  | cons p rest ih =>
    obtain ⟨k, v⟩ := p
    by_cases hk : k = src
    · subst hk
      simp [spwMapInsert, List.lookup]
    · have hk2 : (src == k) = false := by
        simp [beq_eq_false_iff_ne, Ne.symm hk]
      simp only [spwMapInsert, if_neg hk, List.lookup, hk2]
      exact ih

theorem spwMapInsert_lookup_other (m : List (Str × List ℤ)) (src src2 : Str)
    (n : ℤ) (h : src2 ≠ src) :
    (spwMapInsert m src n).lookup src2 = m.lookup src2 := by
  induction m with
  | nil =>
    have h2 : (src2 == src) = false := by
      simp [beq_eq_false_iff_ne, h]
    simp [spwMapInsert, List.lookup, h2]
  | cons p rest ih =>
    obtain ⟨k, v⟩ := p
    by_cases hk : k = src
    · subst hk
      have hk2 : (src2 == k) = false := by
        simp [beq_eq_false_iff_ne, h]
      simp [spwMapInsert, List.lookup, hk2]
    · simp only [spwMapInsert, if_neg hk, List.lookup]
      cases hbeq : src2 == k
      · exact ih
      · rfl

theorem spwMapInsert_nodup (m : List (Str × List ℤ)) (src : Str) (n : ℤ)
    (h : ∀ p ∈ m, List.Nodup p.2) :
    ∀ p ∈ spwMapInsert m src n, List.Nodup p.2 := by
  induction m with
  | nil =>
    intro p hp
    simp only [spwMapInsert, List.mem_singleton] at hp
    subst hp
    exact List.nodup_singleton n
  | cons q rest ih =>
    obtain ⟨k, v⟩ := q
    intro p hp
    by_cases hk : k = src
    · subst hk
      rw [spwMapInsert, if_pos rfl] at hp
      rcases List.mem_cons.mp hp with heq | hmem
      · subst heq
        unfold setAdd
        by_cases hn : n ∈ v
        · rw [if_pos hn]
          exact h (k, v) (List.mem_cons_self _ _)
        · rw [if_neg hn]
          exact List.Nodup.cons hn (h (k, v) (List.mem_cons_self _ _))
      · exact h p (List.mem_cons_of_mem _ hmem)
    · rw [spwMapInsert, if_neg hk] at hp
      rcases List.mem_cons.mp hp with heq | hmem
      · subst heq
        exact h (k, v) (List.mem_cons_self _ _)
      · exact ih (fun q hq => h q (List.mem_cons_of_mem _ hq)) p hmem

theorem buildSpwMap_nodup (remap : Option (List (ℤ × ℤ))) :
    ∀ (rows : List (Str × Option Str)) (m : List (Str × List ℤ)),
      (∀ p ∈ m, List.Nodup p.2) →
      ∀ p ∈ buildSpwMap remap rows m, List.Nodup p.2 := by
  intro rows
  induction rows with
  | nil =>
    intro m hm p hp
    exact hm p hp
  | cons q rest ih =>
    obtain ⟨src, obs⟩ := q
    intro m hm p hp
    rw [buildSpwMap] at hp
    cases hext : extractSpw (obs.getD []) with
    | none =>
      rw [hext] at hp
      exact ih m hm p hp
    | some k =>
      rw [hext] at hp
      exact ih _ (spwMapInsert_nodup m src _ hm) p hp

theorem mem_setAdd (v : List ℤ) (a n : ℤ) :
    n ∈ setAdd v a ↔ n = a ∨ n ∈ v := by
  unfold setAdd
  by_cases h : a ∈ v
  · rw [if_pos h]
    constructor
    · intro hn
      exact Or.inr hn
    · rintro (rfl | hn)
      · exact h
      · exact hn
  · rw [if_neg h]
    exact List.mem_cons

theorem buildSpwMap_mem (remap : Option (List (ℤ × ℤ))) :
    ∀ (rows : List (Str × Option Str)) (m : List (Str × List ℤ))
      (src : Str) (n : ℤ),
      (∃ s, (buildSpwMap remap rows m).lookup src = some s ∧ n ∈ s)
      ↔ (∃ s, m.lookup src = some s ∧ n ∈ s)
        ∨ ∃ obs, (src, obs) ∈ rows
            ∧ ∃ k : ℕ, extractSpw (obs.getD []) = some k
                ∧ applyRemap remap (k : ℤ) = n := by
  intro rows
  induction rows with
  | nil =>
    intro m src n
    rw [buildSpwMap]
    simp
  | cons q rest ih =>
    obtain ⟨s0, obs0⟩ := q
    intro m src n
    rw [buildSpwMap]
    cases hext : extractSpw (obs0.getD []) with
    | none =>
      rw [ih]
      constructor
      · rintro (hm | ⟨obs, hmem, k, hk, hn⟩)
        · exact Or.inl hm
        · exact Or.inr ⟨obs, List.mem_cons_of_mem _ hmem, k, hk, hn⟩
      · rintro (hm | ⟨obs, hmem, k, hk, hn⟩)
        · exact Or.inl hm
        · rcases List.mem_cons.mp hmem with heq | hmem2
          · injection heq with h1 h2
            rw [h2, hext] at hk
            cases hk
          · exact Or.inr ⟨obs, hmem2, k, hk, hn⟩
    | some k0 =>
      rw [ih]
      by_cases hsrc : src = s0
      · subst hsrc
        constructor
        · rintro (⟨s, hs, hn⟩ | ⟨obs, hmem, k, hk, hn⟩)
          · rw [spwMapInsert_lookup_self] at hs
            injection hs with hs
            rw [← hs] at hn
            rcases (mem_setAdd _ _ _).mp hn with hv | hw
            · exact Or.inr ⟨obs0, List.mem_cons_self _ _, k0, hext, hv.symm⟩
            · cases hml : (m.lookup src) with
              | none =>
                rw [hml] at hw
                simp at hw
              | some s2 =>
                rw [hml] at hw
                exact Or.inl ⟨s2, rfl, hw⟩
          · exact Or.inr ⟨obs, List.mem_cons_of_mem _ hmem, k, hk, hn⟩
        · rintro (⟨s, hs, hn⟩ | ⟨obs, hmem, k, hk, hn⟩)
          · refine Or.inl ⟨setAdd ((m.lookup src).getD [])
              (applyRemap remap (k0 : ℤ)), spwMapInsert_lookup_self _ _ _, ?_⟩
            rw [hs]
            exact (mem_setAdd _ _ _).mpr (Or.inr hn)
          · rcases List.mem_cons.mp hmem with heq | hmem2
            · injection heq with h1 h2
              rw [h2, hext] at hk
              injection hk with hk
              subst hk
              refine Or.inl ⟨setAdd ((m.lookup src).getD [])
                (applyRemap remap (k0 : ℤ)), spwMapInsert_lookup_self _ _ _, ?_⟩
              exact (mem_setAdd _ _ _).mpr (Or.inl hn.symm)
            · exact Or.inr ⟨obs, hmem2, k, hk, hn⟩
      · rw [show ∀ x : ℤ, (spwMapInsert m s0 x).lookup src = m.lookup src
          from fun x => spwMapInsert_lookup_other m s0 src x hsrc]
        constructor
        · rintro (hm | ⟨obs, hmem, k, hk, hn⟩)
          · exact Or.inl hm
          · exact Or.inr ⟨obs, List.mem_cons_of_mem _ hmem, k, hk, hn⟩
        · rintro (hm | ⟨obs, hmem, k, hk, hn⟩)
          · exact Or.inl hm
          · rcases List.mem_cons.mp hmem with heq | hmem2
            · injection heq with h1 h2
              exact absurd h1 hsrc
            · exact Or.inr ⟨obs, hmem2, k, hk, hn⟩

theorem lookup_map_snd (m : List (Str × List ℤ)) (f : List ℤ → List ℤ)
    (src : Str) :
    (m.map (fun p => (p.1, f p.2))).lookup src = (m.lookup src).map f := by
  induction m with
  | nil => rfl
  | cons p rest ih =>
    simp only [List.map_cons, List.lookup]
    cases hbeq : src == p.1
    · exact ih
    · rfl

theorem lookup_mem (m : List (Str × List ℤ)) (src : Str) (s : List ℤ)
    (h : m.lookup src = some s) : (src, s) ∈ m := by
  induction m with
  | nil => cases h
  | cons p rest ih =>
    obtain ⟨k, v⟩ := p
    simp only [List.lookup] at h
    cases hbeq : src == k
    · rw [hbeq] at h
      exact List.mem_cons_of_mem _ (ih h)
    · rw [hbeq] at h
      injection h with h
      subst h
      have hk : src = k := eq_of_beq hbeq
      subst hk
      exact List.mem_cons_self _ _

theorem mem_targetRows (db : DB) (mous_id src : Str) (obs : Option Str) :
    (src, obs) ∈ (db.targets.filter (fun t => t.mous_id == mous_id)).map
        (fun t => (t.alma_source_name, t.obs_id))
      ↔ ∃ t, t ∈ db.targets ∧ t.mous_id = mous_id
          ∧ t.alma_source_name = src ∧ t.obs_id = obs := by
  constructor
  · intro h
    rcases List.mem_map.mp h with ⟨t, htf, heq⟩
    rcases List.mem_filter.mp htf with ⟨htm, hbeq⟩
    injection heq with h1 h2
    exact ⟨t, htm, by simpa using hbeq, h1, h2⟩
  · rintro ⟨t, htm, hmid, hsrc, hobs⟩
    exact List.mem_map.mpr ⟨t, List.mem_filter.mpr ⟨htm, by simpa using hmid⟩,
      by rw [hsrc, hobs]⟩

/-- **C5**: the per-target spectral-window mapping: with no stored remap
every raw suffix-derived integer passes through unchanged; with a stored
remap, integers present as keys are replaced by their mapped value and the
others pass through; each computed per-source list is the sorted,
duplicate-free collection of exactly the (remapped) integers extracted
from that MOUS target rows whose `obs_id` matches `.spw.<N>$`, and a
source is absent from the mapping exactly when no such row exists. -/
theorem spw_mapping_spec (db : DB) (mous_id : Str)
    (remap : Option (List (ℤ × ℤ)))
    (hremap : get_spw_remap db mous_id = Except.ok remap) :
    (∀ k : ℤ, applyRemap Option.none k = k)
  ∧ (∀ l (k v : ℤ), remap = some l → l.lookup k = some v →
      applyRemap remap k = v)
  ∧ (∀ l (k : ℤ), remap = some l → l.lookup k = Option.none →
      applyRemap remap k = k)
  ∧ ∃ out, get_mous_spw_mapping db mous_id = Except.ok out
      ∧ ∀ src : Str,
          (∀ l, out.lookup src = some l →
            l.Sorted (· ≤ ·) ∧ l.Nodup ∧
            (∀ n : ℤ, n ∈ l ↔ ∃ t, t ∈ db.targets ∧ t.mous_id = mous_id
                ∧ t.alma_source_name = src
                ∧ ∃ k : ℕ, extractSpw (t.obs_id.getD []) = some k
                    ∧ applyRemap remap (k : ℤ) = n))
        ∧ (out.lookup src = Option.none →
            ¬ ∃ t, t ∈ db.targets ∧ t.mous_id = mous_id
              ∧ t.alma_source_name = src
              ∧ ∃ k : ℕ, extractSpw (t.obs_id.getD []) = some k) := by
  refine ⟨fun k => rfl, ?_, ?_, ?_⟩
  · intro l k v hr hl
    subst hr
    unfold applyRemap
    cases l with
    | nil => cases hl
    | cons a as =>
      dsimp only
      rw [if_neg (by simp), hl]
  · intro l k hr hl
    subst hr
    unfold applyRemap
    cases l with
    | nil => rfl
    | cons a as =>
      dsimp only
      rw [if_neg (by simp), hl]
  · refine ⟨((buildSpwMap remap
      ((db.targets.filter (fun t => t.mous_id == mous_id)).map
        (fun t => (t.alma_source_name, t.obs_id))) []).map
      (fun p => (p.1, p.2.insertionSort (· ≤ ·)))), ?_, ?_⟩
    · unfold get_mous_spw_mapping
      rw [hremap]
      rfl
    · intro src
      constructor
      · intro l hl
        rw [lookup_map_snd] at hl
        cases hml : (buildSpwMap remap
            ((db.targets.filter (fun t => t.mous_id == mous_id)).map
              (fun t => (t.alma_source_name, t.obs_id))) []).lookup src with
        | none =>
          rw [hml] at hl
          cases hl
        | some s =>
          rw [hml] at hl
          injection hl with hl
          subst hl
          have hsnodup : s.Nodup :=
            buildSpwMap_nodup remap _ [] (by intro p hp; cases hp) (src, s)
              (lookup_mem _ _ _ hml)
          refine ⟨List.sorted_insertionSort _ _,
            (List.perm_insertionSort _ s).nodup_iff.mpr hsnodup, ?_⟩
          intro n
          rw [List.Perm.mem_iff (List.perm_insertionSort _ s)]
          have hbm := buildSpwMap_mem remap
            ((db.targets.filter (fun t => t.mous_id == mous_id)).map
              (fun t => (t.alma_source_name, t.obs_id))) [] src n
          constructor
          · intro hn
            rcases hbm.mp ⟨s, hml, hn⟩ with hin | ⟨obs, hmem, k, hk, hv⟩
            · rcases hin with ⟨s2, hs2, _⟩
              cases hs2
            · rcases (mem_targetRows db mous_id src obs).mp hmem with
                ⟨t, htm, hmid, hsrc, hobs⟩
              exact ⟨t, htm, hmid, hsrc, k, by rw [hobs]; exact hk, hv⟩
          · rintro ⟨t, htm, hmid, hsrc, k, hk, hv⟩
            rcases hbm.mpr (Or.inr ⟨t.obs_id,
              (mem_targetRows db mous_id src t.obs_id).mpr
                ⟨t, htm, hmid, hsrc, rfl⟩, k, hk, hv⟩) with ⟨s2, hs2, hns2⟩
            rw [hml] at hs2
            injection hs2 with hs2
            rw [hs2]
            exact hns2
      · intro hnone hcon
        rcases hcon with ⟨t, htm, hmid, hsrc, k, hk⟩
        rcases (buildSpwMap_mem remap
            ((db.targets.filter (fun t => t.mous_id == mous_id)).map
              (fun t => (t.alma_source_name, t.obs_id))) [] src
            (applyRemap remap (k : ℤ))).mpr
            (Or.inr ⟨t.obs_id,
              (mem_targetRows db mous_id src t.obs_id).mpr
                ⟨t, htm, hmid, hsrc, rfl⟩, k, hk, rfl⟩) with ⟨s, hs, _⟩
        rw [lookup_map_snd, hs] at hnone
        cases hnone

def wRowS : PipelineRow :=
  ⟨str "U3", PyVal.none, PyVal.none, PyVal.none, PyVal.none, PyVal.none,
   PyVal.none, PyVal.none, PyVal.none,
   PyVal.pstr (str "\x7b\"16\": \"0\", \"18\": \"1\"\x7d")⟩

def wDB5 : DB :=
  ⟨[wRowS],
   [⟨str "U3", str "SrcA", some (str "SrcA.spw.16")⟩,
    ⟨str "U3", str "SrcA", some (str "SrcA.spw.7")⟩]⟩

theorem spw_mapping_spec_witness :
    get_spw_remap wDB5 (str "U3")
      = Except.ok (some [((16 : ℤ), (0 : ℤ)), (18, 1)])
  ∧ get_mous_spw_mapping wDB5 (str "U3")
      = Except.ok [(str "SrcA", [(0 : ℤ), 7])]
  ∧ applyRemap (some [((16 : ℤ), (0 : ℤ)), (18, 1)]) 16 = 0
  ∧ applyRemap (some [((16 : ℤ), (0 : ℤ)), (18, 1)]) 7 = 7
  ∧ applyRemap Option.none 16 = 16 := by
  obtain ⟨h1, h2, h3, hrest⟩ := spw_mapping_spec wDB5 (str "U3")
      (some [((16 : ℤ), (0 : ℤ)), (18, 1)]) rfl
  exact ⟨rfl, rfl, h2 _ 16 0 rfl rfl, h3 _ 7 rfl rfl, h1 16⟩

def cRowSplit : PipelineRow :=
  ⟨str "uid://A001/X1/X2", PyVal.pstr (str "complete"), PyVal.none,
   PyVal.none, PyVal.pstr (str "[\"/a/p.ms\"]"), PyVal.pstr (str "pending"),
   PyVal.none, PyVal.none, PyVal.none, PyVal.none⟩

def cDBSplit : DB := ⟨[cRowSplit], []⟩

/-- Counterexample to C1 as stated: on a unit with calibrated products but
no target rows, the split flow raises `RuntimeError` (no targets) after
having set `pre_selfcal_split_status` to `'in_progress'`, and the status
is left at `'in_progress'` — not rewritten to `'error'` — when the
exception propagates. -/
theorem status_closure_counterexample :
    (split_mous_flow ⟨true, true, [str "s"]⟩ cDBSplit
        (str "uid://A001/X1/X2") (str "/db.sqlite") (str "/downloads")).1
      = Except.error (PyErr.noTargets (str "uid://A001/X1/X2"))
  ∧ splitStatusOf (split_mous_flow ⟨true, true, [str "s"]⟩ cDBSplit
        (str "uid://A001/X1/X2") (str "/db.sqlite") (str "/downloads")).2
        (str "uid://A001/X1/X2")
      = some (PyVal.pstr (str "in_progress")) := ⟨rfl, rfl⟩

/-- **C1 (amended)**: a validation error leaves the store untouched and the
flow re-raises it; after validation succeeds each flow first writes
`'in_progress'`; a failure inside the launch try-block (modelled by an
empty session-create result) writes `'error'` before re-raising; but the
success path returns with the status still `'in_progress'` (the
monitoring/finalisation block is commented out in all three flows), and a
split/listobs exception raised between the `'in_progress'` write and the
try-block propagates with the status still `'in_progress'`. -/
theorem status_closure_amended (od : DownloadOracle) (os : SplitOracle)
    (ol : ListobsOracle) (db : DB)
    (mous_id db_path download_dir datasets_dir : Str) :
    (∀ e, validate_mous_download_status db mous_id = Except.error e →
      download_mous_flow od db mous_id = (Except.error e, db))
  ∧ (∀ s u, validate_mous_download_status db mous_id = Except.ok (s, u) →
      ((download_mous_flow od db mous_id).1 = Except.ok ()
        → downloadStatusOf (download_mous_flow od db mous_id).2 mous_id
            = some (PyVal.pstr (str "in_progress")))
      ∧ (∀ e, (download_mous_flow od db mous_id).1 = Except.error e
        → downloadStatusOf (download_mous_flow od db mous_id).2 mous_id
            = some (PyVal.pstr (str "error"))))
  ∧ (∀ e, validate_mous_preselfcal_split_status db mous_id = Except.error e →
      split_mous_flow os db mous_id db_path download_dir
        = (Except.error e, db))
  ∧ (validate_mous_preselfcal_split_status db mous_id = Except.ok () →
      ((split_mous_flow os db mous_id db_path download_dir).1 = Except.ok ()
        → splitStatusOf (split_mous_flow os db mous_id db_path
            download_dir).2 mous_id = some (PyVal.pstr (str "in_progress")))
      ∧ (∀ e, (split_mous_flow os db mous_id db_path download_dir).1
            = Except.error e
        → splitStatusOf (split_mous_flow os db mous_id db_path
              download_dir).2 mous_id = some (PyVal.pstr (str "in_progress"))
          ∨ splitStatusOf (split_mous_flow os db mous_id db_path
              download_dir).2 mous_id = some (PyVal.pstr (str "error")))
      ∧ ((split_mous_flow os db mous_id db_path download_dir).1
            = Except.ok ()
        → (split_mous_flow { os with sessionCreate := [] } db mous_id db_path
              download_dir).1 = Except.error PyErr.launchFailure
          ∧ splitStatusOf (split_mous_flow { os with sessionCreate := [] } db
              mous_id db_path download_dir).2 mous_id
            = some (PyVal.pstr (str "error"))))
  ∧ (∀ e, validate_mous_split_status db mous_id = Except.error e →
      post_split_listobs_flow ol db mous_id db_path datasets_dir
        = (Except.error e, db))
  ∧ (validate_mous_split_status db mous_id = Except.ok () →
      ((post_split_listobs_flow ol db mous_id db_path datasets_dir).1
          = Except.ok ()
        → listobsStatusOf
            (post_split_listobs_flow ol db mous_id db_path datasets_dir).2
            mous_id = some (PyVal.pstr (str "in_progress")))
      ∧ (∀ e, (post_split_listobs_flow ol db mous_id db_path datasets_dir).1
            = Except.error e
        → listobsStatusOf
            (post_split_listobs_flow ol db mous_id db_path datasets_dir).2
            mous_id = some (PyVal.pstr (str "in_progress"))
          ∨ listobsStatusOf
              (post_split_listobs_flow ol db mous_id db_path datasets_dir).2
              mous_id = some (PyVal.pstr (str "error")))
      ∧ ((post_split_listobs_flow ol db mous_id db_path datasets_dir).1
            = Except.ok ()
        → (post_split_listobs_flow { ol with sessionCreate := [] } db mous_id
              db_path datasets_dir).1 = Except.error PyErr.launchFailure
          ∧ listobsStatusOf
              (post_split_listobs_flow { ol with sessionCreate := [] } db
                mous_id db_path datasets_dir).2 mous_id
            = some (PyVal.pstr (str "error")))) := by
  refine ⟨?_, ?_, ?_, ?_, ?_, ?_⟩
  · exact fun e he => download_flow_validate_err od db mous_id e he
  · exact fun s u hv => download_flow_post_validate od db mous_id s u hv
  · exact fun e he =>
      split_flow_validate_err os db mous_id db_path download_dir e he
  · exact fun hv =>
      split_flow_post_validate os db mous_id db_path download_dir hv
  · exact fun e he =>
      listobs_flow_validate_err ol db mous_id db_path datasets_dir e he
  · exact fun hv =>
      listobs_flow_post_validate ol db mous_id db_path datasets_dir hv

def wRowC1 : PipelineRow :=
  ⟨str "uid://A001/X1/X2", PyVal.pstr (str "pending"),
   PyVal.pstr (str "http"), PyVal.none, PyVal.none, PyVal.pstr (str "done"),
   PyVal.none, PyVal.pstr (str "pending"), PyVal.none, PyVal.none⟩

def wDBC1 : DB := ⟨[wRowC1], []⟩

theorem status_closure_amended_witness :
    downloadStatusOf (download_mous_flow ⟨some (str "/tmp/x"), [str "s"]⟩
        wDBC1 (str "uid://A001/X1/X2")).2 (str "uid://A001/X1/X2")
      = some (PyVal.pstr (str "in_progress"))
  ∧ split_mous_flow ⟨true, true, [str "s"]⟩ wDBC1 (str "uid://A001/X1/X2")
      (str "/db") (str "/dl")
      = (Except.error (PyErr.badStatus (str "pre_selfcal_split_status")
          (str "uid://A001/X1/X2") (PyVal.pstr (str "done"))
          [str "pending"]), wDBC1)
  ∧ post_split_listobs_flow ⟨true, [str "s"]⟩ wDBC1 (str "uid://A001/X1/X2")
      (str "/db") (str "/ds")
      = (Except.error (PyErr.badStatus (str "pre_selfcal_split_status")
          (str "uid://A001/X1/X2") (PyVal.pstr (str "done"))
          [str "complete"]), wDBC1) := by
  obtain ⟨hd_err, hd_ok, hs_err, hs_ok, hl_err, hl_ok⟩ :=
    status_closure_amended ⟨some (str "/tmp/x"), [str "s"]⟩
      ⟨true, true, [str "s"]⟩ ⟨true, [str "s"]⟩ wDBC1
      (str "uid://A001/X1/X2") (str "/db") (str "/dl") (str "/ds")
  refine ⟨?_, ?_, ?_⟩
  · exact (hd_ok (PyVal.pstr (str "pending")) (PyVal.pstr (str "http"))
      rfl).1 rfl
  · exact hs_err (PyErr.badStatus (str "pre_selfcal_split_status")
      (str "uid://A001/X1/X2") (PyVal.pstr (str "done")) [str "pending"]) rfl
  · exact hl_err (PyErr.badStatus (str "pre_selfcal_split_status")
      (str "uid://A001/X1/X2") (PyVal.pstr (str "done")) [str "complete"]) rfl
